import Mathlib

/-!
Verification of the configuration export engine (config-request.c style):
scalar type formatting, the scope-driven tree walker, deduplication and
section-index bookkeeping, and the parser-session export entry points.

The C source is shallowly embedded: raw byte-offset field access into value
records becomes index access into a `List SettingValue`; the parallel change
mask becomes a `List ChangeValue`; the emission callback becomes an appended
list of `Entry`; machine integers become `Nat` (only formatting and equality
tests are performed on them, no overflowing arithmetic); fatal invariant
violations (failed assertions, unreached code, type-mismatched field access)
are modelled by an `Option` result where `none` means the process aborts.
The recursive tree walker takes an explicit fuel argument so that it is
structurally recursive and computable by the kernel; exhausted fuel also
yields `none`, and all theorems about the walker either supply enough fuel
explicitly or hold for every fuel on successful runs.
-/

/-- Scalar/aggregate type tags of a setting definition (enum setting_type). -/
inductive SettingType where
  | SET_BOOL
  | SET_UINT
  | SET_UINT_OCT
  | SET_TIME
  | SET_TIME_MSECS
  | SET_SIZE
  | SET_IN_PORT
  | SET_STR
  | SET_STR_VARS
  | SET_ENUM
  | SET_DEFLIST
  | SET_DEFLIST_UNIQUE
  | SET_STRLIST
  | SET_ALIAS
deriving DecidableEq, Repr

/-- Dump scope selecting which fields are emitted (enum config_dump_scope). -/
inductive DumpScope where
  | ALL_WITH_HIDDEN
  | ALL_WITHOUT_HIDDEN
  | SET
  | CHANGED
deriving DecidableEq, Repr

/-- Dump flag bit set (enum config_dump_flags). -/
structure DumpFlags where
  hide_list_defaults : Bool
  deduplicate_keys : Bool
deriving DecidableEq, Repr

/-- Entry kinds handed to the emission callback (enum config_key_type). -/
inductive ConfigKeyType where
  | NORMAL
  | LIST
  | UNIQUE_KEY
deriving DecidableEq, Repr

/-- One emitted entry: the callback is invoked with a fully-dotted key, a
textual value and an entry kind. -/
structure Entry where
  key : String
  value : String
  ktype : ConfigKeyType
deriving DecidableEq, Repr

/-- A current (or default) value of one field of a value record.  The
constructor mirrors how the C code reinterprets the bytes at the field's
offset for each setting type: `vStr`/`vStrVars` hold a nullable C string
(`vStrVars` holds the raw stored string including its leading tag byte),
`vList` holds a possibly not-created array of child value records, and
`vStrList` holds a possibly not-created flat array of (subkey, value) string
pairs. -/
inductive SettingValue where
  | vBool (b : Bool)
  | vUInt (n : Nat)
  | vSize (n : Nat)
  | vPort (n : Nat)
  | vStr (s : Option String)
  | vStrVars (s : Option String)
  | vEnum (s : String)
  | vList (children : Option (List (List SettingValue)))
  | vStrList (pairs : Option (List (String × String)))
  | vAlias

/-- A field of the change mask record parallel to a value record: a byte that
is non-zero when the field was explicitly set, or, for a nested-list field,
the array of change records of the children. -/
inductive ChangeValue where
  | cByte (changed : Bool)
  | cList (children : List (List ChangeValue))

mutual

/-- Static schema of one configuration section (struct setting_parser_info):
the ordered setting definitions, the optional record of static defaults, and
the 1-based offset of the name field when this schema is a unique-list
element (0 when there is none), mirroring `type_offset1`. -/
inductive SettingParserInfo where
  | mk (defines : List SettingDefine) (defaults : Option (List SettingValue))
      (type_offset1 : Nat)

/-- One setting definition (struct setting_define): key, type tag, field
offset into the value record, the SET_FLAG_HIDDEN flag, and for nested-list
types the child schema. -/
inductive SettingDefine where
  | mk (key : String) (stype : SettingType) (offset : Nat) (hidden : Bool)
      (list_info : Option SettingParserInfo)

end

def SettingParserInfo.defines : SettingParserInfo → List SettingDefine
  | .mk d _ _ => d

def SettingParserInfo.defaults : SettingParserInfo → Option (List SettingValue)
  | .mk _ d _ => d

def SettingParserInfo.type_offset1 : SettingParserInfo → Nat
  | .mk _ _ t => t

def SettingDefine.key : SettingDefine → String
  | .mk k _ _ _ _ => k

def SettingDefine.stype : SettingDefine → SettingType
  | .mk _ t _ _ _ => t

def SettingDefine.offset : SettingDefine → Nat
  | .mk _ _ o _ _ => o

def SettingDefine.hidden : SettingDefine → Bool
  | .mk _ _ _ h _ => h

def SettingDefine.list_info : SettingDefine → Option SettingParserInfo
  | .mk _ _ _ _ l => l

/-- The reserved key-path separator character (SETTINGS_SEPARATOR from the
settings-parser collaborator). -/
def SETTINGS_SEPARATOR : Char := '/'

/-- The separator as a one-character string. -/
def sepStr : String := String.singleton SETTINGS_SEPARATOR

/-- The leading tag byte marking an unexpanded variable-expandable string
(SETTING_STRVAR_UNEXPANDED[0] from the settings-parser collaborator). -/
def STRVAR_UNEXPANDED_TAG : Char := '0'

/-- Modelled from the spec: `settings_section_escape` is supplied by the
external settings-parser collaborator ("a name-escaping function applied to
section names before embedding them in a key path"); only its call site is
in this source file.  Modelled as a simple character escape that keeps
alphanumeric names unchanged and escapes the separator, blanks and the
escape character itself. -/
def settings_section_escape (s : String) : String :=
  String.mk (s.data.foldr (fun c acc =>
    if c = SETTINGS_SEPARATOR then '\\' :: 's' :: acc
    else if c = ' ' then '\\' :: '_' :: acc
    else if c = '\\' then '\\' :: '\\' :: acc
    else c :: acc) [])

/-- Tail of `config_export_size`'s unit loop: starting from the current size
and suffix, as long as suffixes remain and the size divides evenly by 1024,
move to the next suffix and divide.  Mirrors the C `for` loop with the
remaining suffix list playing the role of the index `i`. -/
def config_export_size_loop : List Char → Nat → Char → Nat × Char
  | [], size, suffix => (size, suffix)
  | c :: rest, size, suffix =>
    if size % 1024 = 0 then config_export_size_loop rest (size / 1024) c
    else (size, suffix)

/-- config_export_size: format a byte-size value. -/
def config_export_size (size : Nat) : String :=
  if size = 0 then "0"
  else
    let r := config_export_size_loop ['k', 'M', 'G', 'T'] size 'B'
    toString r.1 ++ " " ++ String.singleton r.2

/-- config_export_time: format a duration given in seconds. -/
def config_export_time (stamp : Nat) : String :=
  if stamp = 0 then "0"
  else
    let r : Nat × String :=
      if stamp % 60 = 0 then
        let stamp := stamp / 60
        if stamp % 60 = 0 then
          let stamp := stamp / 60
          if stamp % 24 = 0 then
            let stamp := stamp / 24
            if stamp % 7 = 0 then (stamp / 7, "weeks")
            else (stamp, "days")
          else (stamp, "hours")
        else (stamp, "mins")
      else (stamp, "secs")
    toString r.1 ++ " " ++ r.2

/-- config_export_time_msecs: format a duration given in milliseconds. -/
def config_export_time_msecs (stamp_msecs : Nat) : String :=
  if stamp_msecs % 1000 = 0 then config_export_time (stamp_msecs / 1000)
  else toString stamp_msecs ++ " ms"

/-- C null_strcmp(a, b) != 0: string inequality where NULL only equals NULL. -/
def null_strcmp_ne : Option String → Option String → Bool
  | none, none => false
  | none, some _ => true
  | some _, none => true
  | some a, some b => a ≠ b

/-- C strncmp(a, b, n) == 0 over NUL-free strings modelled as char lists:
the first n characters (or all of them, for the shorter string) agree and
neither string ends strictly inside the other's first n characters. -/
def strncmp_eq (a b : List Char) (n : Nat) : Bool :=
  a.take n == b.take n

/-- Reading character i of a C string: the NUL terminator past the end. -/
def c_char_at (s : String) (i : Nat) : Char :=
  s.data.getD i (Char.ofNat 0)

/-- Octal rendering of "0%o" as printf produces it: a leading 0 then the
base-8 digits. -/
def octal_render (n : Nat) : String :=
  "0" ++ String.mk (Nat.toDigits 8 n)

/-- config_export_type: format one typed scalar value (plus optional default)
into text, reporting via the second component whether emission was signalled
(`*dump_r`).  Returns `none` exactly where the C function would hit a fatal
invariant violation: an assertion failure, a type tag outside the scalar
cases (the caller reacts to the C `FALSE` return with i_unreached()), or a
value whose shape does not match the type tag (undefined behaviour of the
byte reinterpretation). -/
def config_export_type (value : SettingValue) (default_value : Option SettingValue)
    (stype : SettingType) (dump_default : Bool) : Option (String × Bool) :=
  match stype, value with
  | .SET_BOOL, .vBool b =>
    match default_value with
    | none => some ((if b then "yes" else "no"), false)
    | some (.vBool db) =>
      if dump_default || b ≠ db then some ((if b then "yes" else "no"), false)
      else some ("", false)
    | some _ => none
  | .SET_SIZE, .vSize n =>
    match default_value with
    | none => some (config_export_size n, false)
    | some (.vSize dn) =>
      if dump_default || n ≠ dn then some (config_export_size n, false)
      else some ("", false)
    | some _ => none
  | .SET_UINT, .vUInt n =>
    match default_value with
    | none => some (toString n, false)
    | some (.vUInt dn) =>
      if dump_default || n ≠ dn then some (toString n, false)
      else some ("", false)
    | some _ => none
  | .SET_UINT_OCT, .vUInt n =>
    match default_value with
    | none => some (octal_render n, false)
    | some (.vUInt dn) =>
      if dump_default || n ≠ dn then some (octal_render n, false)
      else some ("", false)
    | some _ => none
  | .SET_TIME, .vUInt n =>
    match default_value with
    | none => some (config_export_time n, false)
    | some (.vUInt dn) =>
      if dump_default || n ≠ dn then some (config_export_time n, false)
      else some ("", false)
    | some _ => none
  | .SET_TIME_MSECS, .vUInt n =>
    match default_value with
    | none => some (config_export_time_msecs n, false)
    | some (.vUInt dn) =>
      if dump_default || n ≠ dn then some (config_export_time_msecs n, false)
      else some ("", false)
    | some _ => none
  | .SET_IN_PORT, .vPort n =>
    match default_value with
    | none => some (toString n, false)
    | some (.vPort dn) =>
      if dump_default || n ≠ dn then some (toString n, false)
      else some ("", false)
    | some _ => none
  | .SET_STR_VARS, .vStrVars raw =>
    -- i_assert(*val == NULL || **val == SETTING_STRVAR_UNEXPANDED[0])
    if raw.all (fun s => s.data.head? = some STRVAR_UNEXPANDED_TAG) = false then none
    else
      let sval : Option String := raw.map (fun s => s.drop 1)
      let dval : Option String :=
        match default_value with
        | none => none
        | some (.vStrVars ds) => ds
        | some _ => none
      match default_value with
      | some (.vStrVars _) | none =>
        if (dump_default || null_strcmp_ne sval dval) ∧ sval.isSome then
          some (sval.getD "", true)
        else some ("", false)
      | some _ => none
  | .SET_STR, .vStr s =>
    let dval : Option String :=
      match default_value with
      | none => none
      | some (.vStr ds) => ds
      | some _ => none
    match default_value with
    | some (.vStr _) | none =>
      if (dump_default || null_strcmp_ne s dval) ∧ s.isSome then
        some (s.getD "", true)
      else some ("", false)
    | some _ => none
  | .SET_ENUM, .vEnum s =>
    if dump_default then some (s, false)
    else
      match default_value with
      | none => none    -- i_assert(dval != NULL)
      | some (.vEnum ds) =>
        -- mirrors the source verbatim, including indexing *val at
        -- position len = strlen(*val)
        if ¬ strncmp_eq s.data ds.data s.length ∨
            (c_char_at s s.length ≠ ':' ∧ c_char_at s s.length ≠ Char.ofNat 0) then
          some (s, false)
        else some ("", false)
      | some _ => none
  | _, _ => none

/-- The change byte of a field: non-zero when the field was explicitly set.
The walker reads it at every definition's offset; it is meaningful (and, in
well-formed input, only consulted) for scalar fields, where the change
record holds a byte.  For a list-shaped change record the walker's uses of
the byte never influence emission, and it is modelled as unchanged. -/
def changeByte : ChangeValue → Bool
  | .cByte b => b
  | .cList _ => false

/-- The scope switch at the top of the walker's per-definition loop: compute
the forced-default ("dump_default") flag from the dump scope, the
definition's hidden flag and the field's change byte.  The hidden case of
ALL_WITHOUT_HIDDEN falls through to the SET case exactly as in the source. -/
def computeDumpDefault (scope : DumpScope) (hidden : Bool) (changed : Bool) : Bool :=
  match scope with
  | .ALL_WITH_HIDDEN => true
  | .ALL_WITHOUT_HIDDEN =>
    if hidden = false then true
    else changed      -- fall through to the SET case
  | .SET => changed
  | .CHANGED => false

/-- The unique-list default-suppression adjustment that follows the scope
switch: when the parent is a unique list and HIDE_LIST_DEFAULTS is set, an
unchanged non-name field has its default aliased to the current value
(forcing "no difference"), and any other field of such a parent has
dump_default forced to true.  Returns the possibly overridden
(default_value, dump_default) pair. -/
def hideListDefaultsAdjust (parent_unique_deflist : Bool) (hide_list_defaults : Bool)
    (changed : Bool) (is_name_field : Bool) (value : SettingValue)
    (default_value : Option SettingValue) (dump_default : Bool) :
    Option SettingValue × Bool :=
  if ¬ parent_unique_deflist ∨ ¬ hide_list_defaults then
    (default_value, dump_default)
  else if ¬ changed ∧ ¬ is_name_field then
    (some value, dump_default)
  else
    (default_value, true)

/-- SETTING_TYPE_IS_DEFLIST from the headers: the two nested-list types. -/
def SETTING_TYPE_IS_DEFLIST : SettingType → Bool
  | .SET_DEFLIST => true
  | .SET_DEFLIST_UNIQUE => true
  | _ => false

/-- The mutable state of one export pass (struct config_export_context, minus
the attached parser list handled at the session level): dump scope and
flags, the current key prefix, the set of already-emitted keys, the running
global section index, and the stream of entries emitted so far through the
callback. -/
structure ExpCtx where
  scope : DumpScope
  flags : DumpFlags
  pfx : String
  keys : List String
  section_idx : Nat
  out : List Entry
deriving DecidableEq, Repr

/-- config_export_init: fresh context with empty prefix, empty dedup set,
zero section index and nothing emitted. -/
def config_export_init (scope : DumpScope) (flags : DumpFlags) : ExpCtx :=
  ⟨scope, flags, "", [], 0, []⟩

/-- Entry-kind classification of the generic leaf-emission step: UNIQUE_KEY
for the name field of a unique-list parent, LIST for nested-list types,
NORMAL otherwise. -/
def leafKtype (d : SettingDefine) (toff : Nat) (parent_unique : Bool) : ConfigKeyType :=
  if d.offset + 1 = toff ∧ parent_unique then ConfigKeyType.UNIQUE_KEY
  else if SETTING_TYPE_IS_DEFLIST d.stype then ConfigKeyType.LIST
  else ConfigKeyType.NORMAL

/-- The generic leaf-emission step at the end of the walker's switch: if the
scratch value is non-empty or emission was signalled, and the fully-prefixed
key has not already been emitted, invoke the callback with the classified
entry and record the key when deduplication is enabled (the C code inserts
into the hash table right after the callback; the resulting state is
identical). -/
def leafEmit (st : ExpCtx) (d : SettingDefine) (toff : Nat) (parent_unique : Bool)
    (text : String) (dump : Bool) : ExpCtx :=
  if text.length > 0 ∨ dump then
    if st.pfx ++ d.key ∈ st.keys then st
    else if st.flags.deduplicate_keys then
      { st with
        keys := (st.pfx ++ d.key) :: st.keys,
        out := st.out ++ [⟨st.pfx ++ d.key, text, leafKtype d toff parent_unique⟩] }
    else
      { st with
        out := st.out ++ [⟨st.pfx ++ d.key, text, leafKtype d toff parent_unique⟩] }
  else st

/-- setting_export_section_name: the identifier of one child of a nested
list — the running index for a non-unique list, and for a unique list the
escaped name read from the child's name field, falling back to the index
when the name is NULL or empty.  `none` models the fatal cases: a unique
list whose child schema has no name-field marker (failed assertion), a
missing child schema, or a name field that is not string-shaped. -/
def setting_export_section_name (is_unique : Bool) (li : Option SettingParserInfo)
    (childSet : List SettingValue) (idx : Nat) : Option String :=
  if is_unique = false then some (toString idx)
  else
    match li with
    | none => none
    | some l =>
      if l.type_offset1 = 0 then none    -- i_assert(name_offset1 != 0)
      else
        match childSet[l.type_offset1 - 1]? with
        | some (.vStr name) =>
          match name with
          | none => some (toString idx)
          | some n =>
            if n = "" then some (toString idx)
            else some (settings_section_escape n)
        | _ => none

/-- The walker's space-joined list of section identifiers for the children
of a nested-list field, starting at the given running section index.
`first` tracks whether a space must be prepended (the C loop's `i > 0`). -/
def buildSectionNames (is_unique : Bool) (li : Option SettingParserInfo)
    (kids : List (List SettingValue)) (idx : Nat) (first : Bool) : Option String :=
  match kids with
  | [] => some ""
  | c :: rest =>
    match setting_export_section_name is_unique li c idx with
    | none => none
    | some name =>
      match buildSectionNames is_unique li rest (idx + 1) false with
      | none => none
      | some s => some ((if first then "" else " ") ++ name ++ s)

mutual

/-- settings_export: walk one schema root against a value record and its
change record, emitting entries into the context.  Mirrors the C function;
`none` is a fatal invariant violation (or exhausted fuel). -/
def settings_export : Nat → ExpCtx → SettingParserInfo → Bool →
    List SettingValue → List ChangeValue → Option ExpCtx
  | 0, _, _, _, _, _ => none
  | fuel + 1, st, info, parent_unique, set, change_set =>
    exportDefines fuel st info.defines info.defaults info.type_offset1
      parent_unique set change_set

/-- The walker's outer loop over the definition array, in schema order. -/
def exportDefines : Nat → ExpCtx → List SettingDefine → Option (List SettingValue) →
    Nat → Bool → List SettingValue → List ChangeValue → Option ExpCtx
  | 0, _, _, _, _, _, _, _ => none
  | _ + 1, st, [], _, _, _, _, _ => some st
  | fuel + 1, st, d :: rest, defaults, toff, parent_unique, set, change_set =>
    match exportDef fuel st d defaults toff parent_unique set change_set with
    | none => none
    | some st' => exportDefines fuel st' rest defaults toff parent_unique set change_set

/-- The walker's per-definition body: read the field's value, change byte
and static default, run the scope switch and the unique-list adjustment,
dispatch on the type (scalar formatting, nested-list section-name building,
flat string-multimap emission, alias no-op), run the generic leaf-emission
step, and finally recurse into the children of a nested list, assigning
section identifiers from the captured running index and advancing the index
by the element count before the loop. -/
def exportDef : Nat → ExpCtx → SettingDefine → Option (List SettingValue) →
    Nat → Bool → List SettingValue → List ChangeValue → Option ExpCtx
  | 0, _, _, _, _, _, _, _ => none
  | fuel + 1, st, d, defaults, toff, parent_unique, set, change_set =>
    match set[d.offset]?, change_set[d.offset]? with
    | some value, some change_value =>
      let changed := changeByte change_value
      let default_value0 : Option SettingValue :=
        match defaults with
        | none => none
        | some ds => ds[d.offset]?
      let dump_default0 := computeDumpDefault st.scope d.hidden changed
      let adjusted := hideListDefaultsAdjust parent_unique st.flags.hide_list_defaults
        changed (d.offset + 1 = toff) value default_value0 dump_default0
      match d.stype with
      | .SET_DEFLIST | .SET_DEFLIST_UNIQUE =>
        (match value with
         | .vList none => some (leafEmit st d toff parent_unique "" false)
         | .vList (some kids) =>
           (match change_value with
            | .cList ckids =>
              if kids.length = ckids.length then   -- i_assert(count == count2)
                match buildSectionNames (d.stype = SettingType.SET_DEFLIST_UNIQUE)
                    d.list_info kids st.section_idx true with
                | none => none
                | some names =>
                  let st1 := leafEmit st d toff parent_unique names false
                  let section_start_idx := st1.section_idx
                  let st2 := { st1 with section_idx := section_start_idx + kids.length }
                  exportChildren fuel st2 d.key
                    (d.stype = SettingType.SET_DEFLIST_UNIQUE) d.list_info
                    (kids.zip ckids) section_start_idx
              else none
            | _ => none)
         | _ => none)
      | .SET_STRLIST =>
        (match value with
         | .vStrList none => some (leafEmit st d toff parent_unique "" false)
         | .vStrList (some pairs) =>
           let key := st.pfx ++ d.key
           if key ∈ st.keys then
             -- already added all of these
             some (leafEmit st d toff parent_unique "" false)
           else
             let st1 : ExpCtx := if st.flags.deduplicate_keys then { st with keys := key :: st.keys }
               else st
             -- the zero-value multimap announcement for doveconf -n
             let st2 : ExpCtx := { st1 with out := st1.out ++ [Entry.mk key "" ConfigKeyType.LIST] }
             let st3 : ExpCtx := { st2 with out := st2.out ++
               (pairs.map (fun (p : String × String) =>
                 Entry.mk (key ++ sepStr ++ p.1) p.2 ConfigKeyType.NORMAL)) }
             some (leafEmit st3 d toff parent_unique "" false)
         | _ => none)
      | .SET_ALIAS => some (leafEmit st d toff parent_unique "" false)
      | _ =>
        match config_export_type value adjusted.1 d.stype adjusted.2 with
        | none => none
        | some (text, dump) => some (leafEmit st d toff parent_unique text dump)
    | _, _ => none

/-- The walker's recursion loop over the children of a nested-list field:
extend the prefix with "<field><sep><section-identifier><sep>", recurse into
the child schema with the child's value and change records, then restore the
prefix. -/
def exportChildren : Nat → ExpCtx → String → Bool → Option SettingParserInfo →
    List (List SettingValue × List ChangeValue) → Nat → Option ExpCtx
  | 0, _, _, _, _, _, _ => none
  | _ + 1, st, _, _, _, [], _ => some st
  | fuel + 1, st, key, is_unique, li, (cs, cc) :: rest, idx =>
    match li with
    | none => none
    | some l =>
      match setting_export_section_name is_unique li cs idx with
      | none => none
      | some name =>
        let st1 := { st with pfx := st.pfx ++ key ++ sepStr ++ name ++ sepStr }
        match settings_export fuel st1 l is_unique cs cc with
        | none => none
        | some st2 =>
          exportChildren fuel { st2 with pfx := st.pfx } key is_unique li rest (idx + 1)

end

/-- One module parser of a configuration snapshot (struct
config_module_parser): the schema root, the value and change records its
settings parser provides (settings_parser_get_set /
settings_parser_get_changes), and the optional deferred construction
error. -/
structure ConfigModuleParser where
  root : SettingParserInfo
  set : List SettingValue
  changes : List ChangeValue
  delayed_error : Option String

/-- Export of one module parser (the body of config_export_parser once the
parser has been fetched): fail immediately with the stored message if the
parser carries a deferred error, otherwise seed the context's section index
from the in/out counter, run the tree walker over the parser's root, and
hand back the updated context and counter.  `none` is a fatal invariant
violation inside the walker (or exhausted fuel). -/
def config_export_one (fuel : Nat) (st : ExpCtx) (mp : ConfigModuleParser)
    (section_idx : Nat) : Option (Except String (ExpCtx × Nat)) :=
  match mp.delayed_error with
  | some e => some (Except.error e)
  | none =>
    match settings_export fuel { st with section_idx := section_idx }
        mp.root false mp.set mp.changes with
    | none => none
    | some st' => some (Except.ok (st', st'.section_idx))

/-- config_export_parser: export the module parser at the given index of the
attached list. -/
def config_export_parser_at (fuel : Nat) (st : ExpCtx)
    (parsers : List ConfigModuleParser) (parser_idx : Nat)
    (section_idx : Nat) : Option (Except String (ExpCtx × Nat)) :=
  match parsers[parser_idx]? with
  | none => none
  | some mp => config_export_one fuel st mp section_idx

/-- config_export_free: tears the context down (releases the owned
duplicated parsers, destroys the dedup set, releases the pool).  In the
embedding freeing is an event: the function bumps the caller's count of
free operations performed. -/
def config_export_free (frees : Nat) : Nat :=
  frees + 1

/-- The loop of config_export_all_parsers: run config_export_parser over the
attached parsers in order, stopping at the first failure (whose message is
logged and returned here) with a -1 status, and 0 otherwise.  Threads the
shared section-index counter through the calls. -/
def config_export_all_loop (fuel : Nat) (st : ExpCtx)
    (parsers : List ConfigModuleParser) (section_idx : Nat) :
    Option (Int × Option String × ExpCtx × Nat) :=
  match parsers with
  | [] => some (0, none, st, section_idx)
  | mp :: rest =>
    match config_export_one fuel st mp section_idx with
    | none => none
    | some (Except.error e) => some (-1, some e, st, section_idx)
    | some (Except.ok (st', si')) => config_export_all_loop fuel st' rest si'

/-- config_export_all_parsers: run the loop, then free the context exactly
once — the single free call after the loop is reached on the success path
and on the early-break failure path alike.  The result carries the return
status, the logged error (if any), the number of free operations performed,
the final context and the final shared section index. -/
def config_export_all_parsers (fuel : Nat) (st : ExpCtx)
    (parsers : List ConfigModuleParser) (section_idx : Nat) :
    Option (Int × Option String × Nat × ExpCtx × Nat) :=
  match config_export_all_loop fuel st parsers section_idx with
  | none => none
  | some (ret, err, st', si') =>
    let frees := config_export_free 0
    some (ret, err, frees, st', si')

/-- Rank of a dump scope in the permissiveness chain CHANGED < SET <
ALL_WITHOUT_HIDDEN < ALL_WITH_HIDDEN. -/
def scopeRank : DumpScope → Nat
  | .CHANGED => 0
  | .SET => 1
  | .ALL_WITHOUT_HIDDEN => 2
  | .ALL_WITH_HIDDEN => 3

/-- The permissiveness order on dump scopes. -/
def scopeLE (a b : DumpScope) : Prop :=
  scopeRank a ≤ scopeRank b

instance (a b : DumpScope) : Decidable (scopeLE a b) := by
  unfold scopeLE; infer_instance

/-- Modelled from the spec: the chosen-alternative substring of an
enumeration string — "the text up to the separator ':' or end of string".
Used only to state what the spec demands of the enum comparison; the
embedded code is `config_export_type`. -/
def enumChosenAlt (s : String) : String :=
  String.mk (s.data.takeWhile (fun c => c ≠ ':'))

/-! Concrete test fixtures: small schemas, value records and change records
used by witnesses, counterexamples and concrete conjuncts of the claims. -/

/-- Fixture: child schema of a unique list with a name field and one plain
string field with static defaults. -/
def uniqChildInfo : SettingParserInfo :=
  .mk [.mk "name" .SET_STR 0 false none, .mk "f" .SET_STR 1 false none]
    (some [.vStr (some "defname"), .vStr (some "d")]) 1

/-- Fixture: root schema with one unique nested list of `uniqChildInfo`. -/
def uniqRootInfo : SettingParserInfo :=
  .mk [.mk "list" .SET_DEFLIST_UNIQUE 0 false (some uniqChildInfo)] none 0

/-- Fixture: two children that share the section name "n"; the first keeps
the default "d" in field f, the second has "x" there. -/
def uniqSet : List SettingValue :=
  [.vList (some [[.vStr (some "n"), .vStr (some "d")],
                 [.vStr (some "n"), .vStr (some "x")]])]

/-- Fixture: change mask for `uniqSet` — only the second child's field f is
explicitly set. -/
def uniqChanges : List ChangeValue :=
  [.cList [[.cByte false, .cByte false], [.cByte false, .cByte true]]]

/-- Fixture: child schema of a unique list carrying a string multimap. -/
def mmChildInfo : SettingParserInfo :=
  .mk [.mk "name" .SET_STR 0 false none, .mk "m" .SET_STRLIST 1 false none] none 1

/-- Fixture: root schema with one unique nested list of `mmChildInfo`. -/
def mmRootInfo : SettingParserInfo :=
  .mk [.mk "sec" .SET_DEFLIST_UNIQUE 0 false (some mmChildInfo)] none 0

/-- Fixture: two sibling sections with the same name "n", each carrying the
same multimap with the single pair (a, 1); both therefore produce the same
fully-prefixed multimap key. -/
def mmSet : List SettingValue :=
  [.vList (some [[.vStr (some "n"), .vStrList (some [("a", "1")])],
                 [.vStr (some "n"), .vStrList (some [("a", "1")])]])]

/-- Fixture: change mask for `mmSet` (nothing explicitly set). -/
def mmChanges : List ChangeValue :=
  [.cList [[.cByte false, .cByte false], [.cByte false, .cByte false]]]

/-- Fixture: child schema of the section-index unique list — the name lives
at offset 0 (type_offset1 = 1) and the schema exports no definitions of its
own, so each child contributes nothing to the stream and does not move the
section counter. -/
def idxUniqChildInfo : SettingParserInfo := .mk [] none 1

/-- Fixture: child schema of the section-index non-unique list: one plain
string field. -/
def idxListChildInfo : SettingParserInfo :=
  .mk [.mk "f" .SET_STR 0 false none] none 0

/-- Fixture: root schema with a unique list "u" followed by a sibling
non-unique list "l". -/
def idxRootInfo : SettingParserInfo :=
  .mk [.mk "u" .SET_DEFLIST_UNIQUE 0 false (some idxUniqChildInfo),
       .mk "l" .SET_DEFLIST 1 false (some idxListChildInfo)] none 0

/-- Fixture: k children named "a" under the unique list, then three children
under the non-unique list. -/
def idxSet (k : Nat) : List SettingValue :=
  [.vList (some (List.replicate k [.vStr (some "a")])),
   .vList (some [[.vStr (some "x")], [.vStr (some "x")], [.vStr (some "x")]])]

/-- Frame facts preserved by every walker call. -/
def WalkFrame (st st' : ExpCtx) : Prop :=
  st'.scope = st.scope ∧ st'.flags = st.flags ∧ st'.pfx = st.pfx ∧
  st.section_idx ≤ st'.section_idx ∧
  (∃ t, st'.out = st.out ++ t) ∧
  (∃ ks, st'.keys = ks ++ st.keys) ∧
  (st.flags.deduplicate_keys = false → st'.keys = st.keys)

/-- The scope-simulation relation between a low-scope and a high-scope run
of the walker (DEDUPLICATE_KEYS clear): the two contexts agree on flags,
prefix, key set and section index, carry the two fixed scopes, and the
low run's output is a sublist (order-preserving subset) of the high run's. -/
def SimRel (scL scH : DumpScope) (stL stH : ExpCtx) : Prop :=
  stL.scope = scL ∧ stH.scope = scH ∧ stL.flags = stH.flags ∧
  stL.flags.deduplicate_keys = false ∧ stL.pfx = stH.pfx ∧
  stL.keys = stH.keys ∧ stL.section_idx = stH.section_idx ∧
  stL.out.Sublist stH.out

/-- Fixture: change mask for `idxSet`. -/
def idxChanges (k : Nat) : List ChangeValue :=
  [.cList (List.replicate k []),
   .cList [[.cByte false], [.cByte false], [.cByte false]]]

/-! Theorems.  First a few generic helper lemmas, then one theorem per
claim (with witnesses and counterexamples where required). -/

theorem string_append_assoc (a b c : String) : a ++ b ++ c = a ++ (b ++ c) := by
  apply String.ext
  simp [String.data_append, List.append_assoc]

theorem dvd_iff_mod1024 (m : Nat) : 1024 ∣ m ↔ m % 1024 = 0 :=
  Nat.dvd_iff_mod_eq_zero

theorem size_loop_stop (cs : List Char) (size : Nat) (suffix : Char)
    (h : ¬ (1024 ∣ size)) :
    config_export_size_loop cs size suffix = (size, suffix) := by
  cases cs with
  | nil => rfl
  | cons c rest =>
    have hm : ¬ size % 1024 = 0 := fun hx => h (Nat.dvd_iff_mod_eq_zero.mpr hx)
    simp [config_export_size_loop, hm]

theorem size_loop_step (c : Char) (rest : List Char) (size : Nat) (suffix : Char)
    (h : 1024 ∣ size) :
    config_export_size_loop (c :: rest) size suffix =
      config_export_size_loop rest (size / 1024) c := by
  have hm : size % 1024 = 0 := Nat.dvd_iff_mod_eq_zero.mp h
  simp [config_export_size_loop, hm]

theorem dvd_div_step (n e : Nat) (h : 1024 ^ (e + 1) ∣ n) : 1024 ∣ n / 1024 ^ e :=
  (Nat.dvd_div_iff_mul_dvd (dvd_trans (pow_dvd_pow 1024 (Nat.le_succ e)) h)).mpr
    (by rw [← pow_succ]; exact h)

theorem not_dvd_div_step (n e : Nat) (he : 1024 ^ e ∣ n) (h : ¬ 1024 ^ (e + 1) ∣ n) :
    ¬ 1024 ∣ n / 1024 ^ e :=
  fun hc => h (by rw [pow_succ]; exact (Nat.dvd_div_iff_mul_dvd he).mp hc)

/-- Claim C7: the byte-size formatter produces "0" for zero; otherwise it
divides by 1024 while evenly divisible, choosing the largest unit among
B, k, M, G, T that divides exactly, and renders "(int) (unit)"; in
particular 1024 formats as "1 k", 1536 as "1536 B" and 1073741824 as
"1 G". -/
theorem size_formatting_rule :
    config_export_size 0 = "0" ∧
    config_export_size 1024 = "1 k" ∧
    config_export_size 1536 = "1536 B" ∧
    config_export_size 1073741824 = "1 G" ∧
    ∀ n e, 0 < n → e ≤ 4 → 1024 ^ e ∣ n → (e = 4 ∨ ¬ (1024 ^ (e + 1) ∣ n)) →
      config_export_size n =
        toString (n / 1024 ^ e) ++ " " ++
          String.singleton (['B', 'k', 'M', 'G', 'T'].getD e 'B') := by
  refine ⟨by decide, by decide, by decide, by decide, ?_⟩
  intro n e hn he hdvd hmax
  have hn0 : n ≠ 0 := Nat.pos_iff_ne_zero.mp hn
  have hd0 : (1024:Nat) ^ 0 ∣ n := by simp
  interval_cases e
  · rcases hmax with h4 | hstop
    · exact absurd h4 (by norm_num)
    · have h := not_dvd_div_step n 0 hd0 hstop
      simp only [pow_zero, Nat.div_one] at h ⊢
      simp only [config_export_size, hn0, if_false]
      rw [size_loop_stop _ _ _ h]
      apply String.ext
      simp [String.data_append, String.singleton]
  · rcases hmax with h4 | hstop
    · exact absurd h4 (by norm_num)
    · have s1 : 1024 ∣ n := by simpa using dvd_div_step n 0 (by simpa using hdvd)
      have h := not_dvd_div_step n 1 hdvd hstop
      simp only [pow_one] at h ⊢
      simp only [config_export_size, hn0, if_false]
      rw [size_loop_step _ _ _ _ s1, size_loop_stop _ _ _ h]
      apply String.ext
      simp [String.data_append, String.singleton]
  · rcases hmax with h4 | hstop
    · exact absurd h4 (by norm_num)
    · have s1 : 1024 ∣ n :=
        dvd_trans (by norm_num : (1024:Nat) ∣ 1024 ^ 2) hdvd
      have s2 : 1024 ∣ n / 1024 := by
        simpa using dvd_div_step n 1 (by simpa using hdvd)
      have h := not_dvd_div_step n 2 hdvd hstop
      simp only [config_export_size, hn0, if_false]
      rw [size_loop_step _ _ _ _ s1, size_loop_step _ _ _ _ s2,
        size_loop_stop _ _ _ (by rw [Nat.div_div_eq_div_mul]; simpa [pow_succ] using h)]
      rw [Nat.div_div_eq_div_mul]
      apply String.ext
      simp [String.data_append, String.singleton, pow_succ]
  · rcases hmax with h4 | hstop
    · exact absurd h4 (by norm_num)
    · have s1 : 1024 ∣ n :=
        dvd_trans (by norm_num : (1024:Nat) ∣ 1024 ^ 3) hdvd
      have s2 : 1024 ∣ n / 1024 := by
        simpa using dvd_div_step n 1
          (dvd_trans (by norm_num : (1024:Nat) ^ 2 ∣ 1024 ^ 3) hdvd)
      have s3 : 1024 ∣ n / 1024 / 1024 := by
        have := dvd_div_step n 2 (by simpa using hdvd)
        rwa [show (1024:Nat) ^ 2 = 1024 * 1024 by norm_num,
          ← Nat.div_div_eq_div_mul] at this
      have h := not_dvd_div_step n 3 hdvd hstop
      simp only [config_export_size, hn0, if_false]
      rw [size_loop_step _ _ _ _ s1, size_loop_step _ _ _ _ s2,
        size_loop_step _ _ _ _ s3,
        size_loop_stop _ _ _ (by
          rw [Nat.div_div_eq_div_mul, Nat.div_div_eq_div_mul]
          simpa [show (1024:Nat) ^ 3 = 1024 * 1024 * 1024 by norm_num,
            Nat.mul_assoc] using h)]
      rw [Nat.div_div_eq_div_mul, Nat.div_div_eq_div_mul]
      apply String.ext
      simp [String.data_append, String.singleton,
        show (1024:Nat) ^ 3 = 1024 * (1024 * 1024) by norm_num]
  · have s1 : 1024 ∣ n :=
      dvd_trans (by norm_num : (1024:Nat) ∣ 1024 ^ 4) hdvd
    have s2 : 1024 ∣ n / 1024 := by
      simpa using dvd_div_step n 1
        (dvd_trans (by norm_num : (1024:Nat) ^ 2 ∣ 1024 ^ 4) hdvd)
    have s3 : 1024 ∣ n / 1024 / 1024 := by
      have := dvd_div_step n 2
        (dvd_trans (by norm_num : (1024:Nat) ^ 3 ∣ 1024 ^ 4) hdvd)
      rwa [show (1024:Nat) ^ 2 = 1024 * 1024 by norm_num,
        ← Nat.div_div_eq_div_mul] at this
    have s4 : 1024 ∣ n / 1024 / 1024 / 1024 := by
      have := dvd_div_step n 3 (by simpa using hdvd)
      rwa [show (1024:Nat) ^ 3 = 1024 * 1024 * 1024 by norm_num,
        ← Nat.div_div_eq_div_mul, ← Nat.div_div_eq_div_mul] at this
    simp only [config_export_size, hn0, if_false]
    rw [size_loop_step _ _ _ _ s1, size_loop_step _ _ _ _ s2,
      size_loop_step _ _ _ _ s3, size_loop_step _ _ _ _ s4]
    rw [Nat.div_div_eq_div_mul, Nat.div_div_eq_div_mul, Nat.div_div_eq_div_mul]
    apply String.ext
    simp [config_export_size_loop, String.data_append, String.singleton,
      show (1024:Nat) ^ 4 = 1024 * 1024 * 1024 * 1024 by norm_num, Nat.mul_assoc]

/-- Witness for claim C7's general rule at a concrete input: 2048 bytes,
exactly divisible by 1024 once, renders as "2 k". -/
theorem size_formatting_rule_witness :
    config_export_size 2048 =
      toString (2048 / 1024 ^ 1) ++ " " ++
        String.singleton (['B', 'k', 'M', 'G', 'T'].getD 1 'B') :=
  size_formatting_rule.2.2.2.2 2048 1 (by decide) (by decide) (by decide)
    (Or.inr (by decide))

theorem time_div_mod_step (s a b : Nat) (ha : a ∣ s) :
    (a * b ∣ s) ↔ (s / a) % b = 0 := by
  rw [← Nat.dvd_iff_mod_eq_zero]
  exact (Nat.dvd_div_iff_mul_dvd ha).symm

/-- Claim C8: the duration-seconds formatter produces "0" for zero and
otherwise walks the unit chain seconds, minutes (div 60), hours (div 60),
days (div 24), weeks (div 7), advancing a step only while the division at
that step is exact, rendering "(int) (unit-name)"; a milliseconds value that
is an exact multiple of 1000 is formatted as its whole-second count by the
same rule and otherwise as "(int) ms"; in particular 90 gives "90 secs",
120 gives "2 mins", 604800 gives "1 weeks", 90000 ms gives "90 secs" and
1500 ms gives "1500 ms". -/
theorem duration_formatting_rule :
    config_export_time 0 = "0" ∧
    config_export_time 90 = "90 secs" ∧
    config_export_time 120 = "2 mins" ∧
    config_export_time 604800 = "1 weeks" ∧
    config_export_time_msecs 90000 = "90 secs" ∧
    config_export_time_msecs 1500 = "1500 ms" ∧
    (∀ s, 0 < s → ¬ (60 ∣ s) →
      config_export_time s = toString s ++ " secs") ∧
    (∀ s, 60 ∣ s → ¬ (3600 ∣ s) →
      config_export_time s = toString (s / 60) ++ " mins") ∧
    (∀ s, 3600 ∣ s → ¬ (86400 ∣ s) →
      config_export_time s = toString (s / 3600) ++ " hours") ∧
    (∀ s, 86400 ∣ s → ¬ (604800 ∣ s) →
      config_export_time s = toString (s / 86400) ++ " days") ∧
    (∀ s, 0 < s → 604800 ∣ s →
      config_export_time s = toString (s / 604800) ++ " weeks") ∧
    (∀ m, 1000 ∣ m → config_export_time_msecs m = config_export_time (m / 1000)) ∧
    (∀ m, ¬ (1000 ∣ m) → config_export_time_msecs m = toString m ++ " ms") := by
  refine ⟨by decide, by decide, by decide, by decide, by decide, by decide,
    ?_, ?_, ?_, ?_, ?_, ?_, ?_⟩
  · intro s hs h60
    have hs0 : s ≠ 0 := Nat.pos_iff_ne_zero.mp hs
    have hm : ¬ s % 60 = 0 := fun hx => h60 (Nat.dvd_iff_mod_eq_zero.mpr hx)
    simp only [config_export_time, hs0, if_false, hm, if_neg]
    apply String.ext
    simp [String.data_append]
  · intro s h60 h3600
    have hs0 : s ≠ 0 := by rintro rfl; exact h3600 (by decide)
    have hm : s % 60 = 0 := Nat.dvd_iff_mod_eq_zero.mp h60
    have hm2 : ¬ (s / 60) % 60 = 0 := by
      rw [← time_div_mod_step s 60 60 h60]
      simpa using h3600
    simp only [config_export_time, hs0, if_false, hm, hm2, if_true, if_neg,
      if_pos, Nat.div_div_eq_div_mul]
    apply String.ext
    simp [String.data_append]
  · intro s h3600 h86400
    have hs0 : s ≠ 0 := by rintro rfl; exact h86400 (by decide)
    have h60 : 60 ∣ s := dvd_trans (by norm_num) h3600
    have hm : s % 60 = 0 := Nat.dvd_iff_mod_eq_zero.mp h60
    have hm2 : (s / 60) % 60 = 0 := by
      rw [← time_div_mod_step s 60 60 h60]
      simpa using h3600
    have hm3 : ¬ (s / 3600) % 24 = 0 := by
      rw [← time_div_mod_step s 3600 24 h3600]
      simpa using h86400
    simp only [config_export_time, hs0, if_false, hm, hm2, hm3, if_true, if_neg,
      if_pos, Nat.div_div_eq_div_mul]
    apply String.ext
    norm_num [String.data_append]
  · intro s h86400 h604800
    have hs0 : s ≠ 0 := by rintro rfl; exact h604800 (by decide)
    have h60 : 60 ∣ s := dvd_trans (by norm_num) h86400
    have h3600 : 3600 ∣ s := dvd_trans (by norm_num) h86400
    have hm : s % 60 = 0 := Nat.dvd_iff_mod_eq_zero.mp h60
    have hm2 : (s / 60) % 60 = 0 := by
      rw [← time_div_mod_step s 60 60 h60]
      simpa using h3600
    have hm3 : (s / 3600) % 24 = 0 := by
      rw [← time_div_mod_step s 3600 24 h3600]
      simpa using h86400
    have hm4 : ¬ (s / 86400) % 7 = 0 := by
      rw [← time_div_mod_step s 86400 7 h86400]
      simpa using h604800
    simp only [config_export_time, hs0, if_false, hm, hm2, hm3, hm4, if_true,
      if_neg, if_pos, Nat.div_div_eq_div_mul]
    apply String.ext
    norm_num [String.data_append]
  · intro s hs h604800
    have hs0 : s ≠ 0 := Nat.pos_iff_ne_zero.mp hs
    have h60 : 60 ∣ s := dvd_trans (by norm_num) h604800
    have h3600 : 3600 ∣ s := dvd_trans (by norm_num) h604800
    have h86400 : 86400 ∣ s := dvd_trans (by norm_num) h604800
    have hm : s % 60 = 0 := Nat.dvd_iff_mod_eq_zero.mp h60
    have hm2 : (s / 60) % 60 = 0 := by
      rw [← time_div_mod_step s 60 60 h60]
      simpa using h3600
    have hm3 : (s / 3600) % 24 = 0 := by
      rw [← time_div_mod_step s 3600 24 h3600]
      simpa using h86400
    have hm4 : (s / 86400) % 7 = 0 := by
      rw [← time_div_mod_step s 86400 7 h86400]
      simpa using h604800
    simp only [config_export_time, hs0, if_false, hm, hm2, hm3, hm4, if_true,
      if_neg, if_pos, Nat.div_div_eq_div_mul]
    apply String.ext
    norm_num [String.data_append]
  · intro m h1000
    have hm : m % 1000 = 0 := Nat.dvd_iff_mod_eq_zero.mp h1000
    simp [config_export_time_msecs, hm]
  · intro m h1000
    have hm : ¬ m % 1000 = 0 := fun hx => h1000 (Nat.dvd_iff_mod_eq_zero.mpr hx)
    simp only [config_export_time_msecs, hm, if_false, if_neg]

/-- Witness for claim C8's general rules at concrete inputs. -/
theorem duration_formatting_rule_witness :
    config_export_time 45 = toString 45 ++ " secs" ∧
    config_export_time 1800 = toString (1800 / 60) ++ " mins" ∧
    config_export_time 7200 = toString (7200 / 3600) ++ " hours" ∧
    config_export_time 172800 = toString (172800 / 86400) ++ " days" ∧
    config_export_time 1209600 = toString (1209600 / 604800) ++ " weeks" ∧
    config_export_time_msecs 2000 = config_export_time (2000 / 1000) ∧
    config_export_time_msecs 2500 = toString 2500 ++ " ms" :=
  ⟨duration_formatting_rule.2.2.2.2.2.2.1 45 (by decide) (by decide),
   duration_formatting_rule.2.2.2.2.2.2.2.1 1800 (by decide) (by decide),
   duration_formatting_rule.2.2.2.2.2.2.2.2.1 7200 (by decide) (by decide),
   duration_formatting_rule.2.2.2.2.2.2.2.2.2.1 172800 (by decide) (by decide),
   duration_formatting_rule.2.2.2.2.2.2.2.2.2.2.1 1209600 (by decide) (by decide),
   duration_formatting_rule.2.2.2.2.2.2.2.2.2.2.2.1 2000 (by decide),
   duration_formatting_rule.2.2.2.2.2.2.2.2.2.2.2.2 2500 (by decide)⟩

/-- Claim C1: for every setting definition processed by the tree walker, the
forced-default flag is computed from the dump scope exactly as follows:
under ALL_WITH_HIDDEN it is true; under ALL_WITHOUT_HIDDEN it is true when
the definition's hidden flag is clear and otherwise equals the change byte
being non-zero; under SET it equals the change byte being non-zero; under
CHANGED it is false. -/
theorem dump_default_flag_rule :
    ∀ hidden changed : Bool,
      computeDumpDefault DumpScope.ALL_WITH_HIDDEN hidden changed = true ∧
      computeDumpDefault DumpScope.ALL_WITHOUT_HIDDEN hidden changed =
        (if hidden then changed else true) ∧
      computeDumpDefault DumpScope.SET hidden changed = changed ∧
      computeDumpDefault DumpScope.CHANGED hidden changed = false := by
  decide

/-- Witness for claim C1 at a concrete input: a hidden field whose change
byte is clear is not force-dumped under ALL_WITHOUT_HIDDEN. -/
theorem dump_default_flag_rule_witness :
    computeDumpDefault DumpScope.ALL_WITHOUT_HIDDEN true false =
      (if true then false else true) :=
  (dump_default_flag_rule true false).2.1

/-- Claim C2: the unique-list default suppression applies only when the
parent is a unique list, HIDE_LIST_DEFAULTS is set, and the field is not the
section's name field: such a field, when unchanged, has its value compared
against itself (the default is aliased to the current value, forcing
suppression) instead of the schema's static default, and, when changed, has
emission forced regardless of the static default; when the parent is not a
unique list or the flag is clear, default and flag pass through
untouched. -/
theorem unique_list_default_suppression :
    ∀ (pu hl ch nf : Bool) (v : SettingValue) (dv : Option SettingValue) (dd : Bool),
      (pu = true → hl = true → nf = false → ch = false →
        hideListDefaultsAdjust pu hl ch nf v dv dd = (some v, dd)) ∧
      (pu = true → hl = true → nf = false → ch = true →
        hideListDefaultsAdjust pu hl ch nf v dv dd = (dv, true)) ∧
      (pu = false ∨ hl = false →
        hideListDefaultsAdjust pu hl ch nf v dv dd = (dv, dd)) := by
  intro pu hl ch nf v dv dd
  refine ⟨?_, ?_, ?_⟩
  · rintro rfl rfl rfl rfl
    simp [hideListDefaultsAdjust]
  · rintro rfl rfl rfl rfl
    simp [hideListDefaultsAdjust]
  · rintro (rfl | rfl) <;> simp [hideListDefaultsAdjust]

/-- Witness for claim C2 at concrete inputs: suppression for an unchanged
non-name field under a unique-list parent with the flag set, forced emission
for a changed one, and pass-through when the parent is not a unique list. -/
theorem unique_list_default_suppression_witness :
    hideListDefaultsAdjust true true false false (SettingValue.vBool true) none false =
      (some (SettingValue.vBool true), false) ∧
    hideListDefaultsAdjust true true true false (SettingValue.vBool true) none false =
      (none, true) ∧
    hideListDefaultsAdjust false true false false (SettingValue.vBool true)
        (some (SettingValue.vBool false)) true =
      (some (SettingValue.vBool false), true) :=
  ⟨(unique_list_default_suppression true true false false _ none false).1
      rfl rfl rfl rfl,
   (unique_list_default_suppression true true true false _ none false).2.1
      rfl rfl rfl rfl,
   (unique_list_default_suppression false true false false _ _ true).2.2
      (Or.inl rfl)⟩

/-- Claim C4 (code bug): the enum formatter is supposed to emit a value (when
not force-dumped) iff the chosen alternative of the current value — the text
up to ':' or end of string — differs from the chosen alternative of the
default.  The source instead compares only the first strlen(current) bytes
of the two strings, because its terminator check indexes the CURRENT value
at its own length (always the NUL terminator) rather than the default: with
current "fo" and default "foo:fo" the chosen alternatives "fo" and "foo"
differ, yet the code emits nothing.  The claim's own "foo" versus "foo:bar"
example does agree with the code. -/
theorem enum_comparison_code_bug :
    config_export_type (SettingValue.vEnum "fo") (some (SettingValue.vEnum "foo:fo"))
      SettingType.SET_ENUM false = some ("", false) ∧
    enumChosenAlt "fo" ≠ enumChosenAlt "foo:fo" ∧
    c_char_at "fo" (String.length "fo") = Char.ofNat 0 ∧
    config_export_type (SettingValue.vEnum "foo") (some (SettingValue.vEnum "foo:bar"))
      SettingType.SET_ENUM false = some ("", false) := by
  refine ⟨by decide, by decide, by decide, by decide⟩

theorem leafEmit_empty (st : ExpCtx) (d : SettingDefine) (toff : Nat) (pu : Bool) :
    leafEmit st d toff pu "" false = st := by
  simp [leafEmit]

set_option maxHeartbeats 2000000 in
/-- Claim C5: a flat string-multimap field whose fully-prefixed key is
already in the emitted-keys set is skipped entirely (nothing emitted, state
unchanged); otherwise, with DEDUPLICATE_KEYS set, the key is recorded and
exactly one empty-value announcement entry is emitted for the key, followed
by exactly one entry per ordered (subkey, value) pair under key
"(prefix)(field)(sep)(subkey)" — and nothing else, so this path never also
produces a generic leaf entry.  Consequently, with DEDUPLICATE_KEYS set, two
sibling sections producing the same multimap key emit the announcement and
its pairs exactly once in total. -/
theorem strlist_multimap_rule :
    (∀ (fuel : Nat) (st : ExpCtx) (d : SettingDefine)
       (dfl : Option (List SettingValue)) (toff : Nat) (pu : Bool)
       (set : List SettingValue) (ch : List ChangeValue)
       (ps : List (String × String)) (cv : ChangeValue),
      d.stype = SettingType.SET_STRLIST →
      set[d.offset]? = some (SettingValue.vStrList (some ps)) →
      ch[d.offset]? = some cv →
      st.pfx ++ d.key ∈ st.keys →
      exportDef (fuel + 1) st d dfl toff pu set ch = some st) ∧
    (∀ (fuel : Nat) (st : ExpCtx) (d : SettingDefine)
       (dfl : Option (List SettingValue)) (toff : Nat) (pu : Bool)
       (set : List SettingValue) (ch : List ChangeValue)
       (ps : List (String × String)) (cv : ChangeValue),
      d.stype = SettingType.SET_STRLIST →
      set[d.offset]? = some (SettingValue.vStrList (some ps)) →
      ch[d.offset]? = some cv →
      st.pfx ++ d.key ∉ st.keys →
      st.flags.deduplicate_keys = true →
      exportDef (fuel + 1) st d dfl toff pu set ch =
        some { st with
          keys := (st.pfx ++ d.key) :: st.keys,
          out := st.out ++
            Entry.mk (st.pfx ++ d.key) "" ConfigKeyType.LIST ::
              ps.map (fun p =>
                Entry.mk ((st.pfx ++ d.key) ++ sepStr ++ p.1) p.2
                  ConfigKeyType.NORMAL) }) ∧
    ((((settings_export 20 (config_export_init DumpScope.CHANGED ⟨false, true⟩)
        mmRootInfo false mmSet mmChanges).map ExpCtx.out).getD []).filter
        (fun e => e.key = "sec/n/m") =
      [Entry.mk "sec/n/m" "" ConfigKeyType.LIST] ∧
     (((settings_export 20 (config_export_init DumpScope.CHANGED ⟨false, true⟩)
        mmRootInfo false mmSet mmChanges).map ExpCtx.out).getD []).filter
        (fun e => e.key = "sec/n/m" ++ sepStr ++ "a") =
      [Entry.mk "sec/n/m/a" "1" ConfigKeyType.NORMAL]) := by
  refine ⟨?_, ?_, ?_, ?_⟩
  · intro fuel st d dfl toff pu set ch ps cv hd hv hc hmem
    simp only [exportDef, hv, hc, hd, if_pos hmem, leafEmit_empty]
  · intro fuel st d dfl toff pu set ch ps cv hd hv hc hmem hdup
    simp only [exportDef, hv, hc, hd, if_neg hmem, hdup, if_true, leafEmit_empty,
      List.append_assoc, List.singleton_append]
  · rfl
  · rfl

/-- Witness for claim C5's conditional parts at a concrete input: a multimap
field under prefix "p/" whose key "p/m" is already recorded is skipped, and
the same field with an empty key set and deduplication on emits the
announcement and its single pair while recording the key. -/
theorem strlist_multimap_rule_witness :
    exportDef 1 ⟨DumpScope.CHANGED, ⟨false, true⟩, "p/", ["p/m"], 0, []⟩
      (.mk "m" .SET_STRLIST 0 false none) none 0 false
      [.vStrList (some [("a", "1")])] [.cByte false] =
      some ⟨DumpScope.CHANGED, ⟨false, true⟩, "p/", ["p/m"], 0, []⟩ ∧
    exportDef 1 ⟨DumpScope.CHANGED, ⟨false, true⟩, "p/", [], 0, []⟩
      (.mk "m" .SET_STRLIST 0 false none) none 0 false
      [.vStrList (some [("a", "1")])] [.cByte false] =
      some ⟨DumpScope.CHANGED, ⟨false, true⟩, "p/", ["p/" ++ "m"], 0,
        [] ++ Entry.mk ("p/" ++ "m") "" ConfigKeyType.LIST ::
          [("a", "1")].map (fun p =>
            Entry.mk (("p/" ++ "m") ++ sepStr ++ p.1) p.2 ConfigKeyType.NORMAL)⟩ :=
  ⟨strlist_multimap_rule.1 0 _ _ none 0 false _ _ [("a", "1")] (.cByte false)
      rfl rfl rfl (by decide),
   strlist_multimap_rule.2.1 0 _ _ none 0 false _ _ [("a", "1")] (.cByte false)
      rfl rfl rfl (by decide) rfl⟩

theorem all_loop_status (fuel : Nat) :
    ∀ (ps : List ConfigModuleParser) (st : ExpCtx) (si : Nat)
      (ret : Int) (err : Option String) (st' : ExpCtx) (si' : Nat),
      config_export_all_loop fuel st ps si = some (ret, err, st', si') →
      (ret = 0 ∧ err = none) ∨ (ret = -1 ∧ ∃ e, err = some e) := by
  intro ps
  induction ps with
  | nil =>
    intro st si ret err st' si' h
    simp only [config_export_all_loop, Option.some.injEq, Prod.mk.injEq] at h
    exact Or.inl ⟨h.1.symm, h.2.1.symm⟩
  | cons mp rest ih =>
    intro st si ret err st' si' h
    simp only [config_export_all_loop] at h
    rcases hone : config_export_one fuel st mp si with _ | r
    · rw [hone] at h; cases h
    · rw [hone] at h
      rcases r with e | ⟨st2, si2⟩
      · simp only [Option.some.injEq, Prod.mk.injEq] at h
        exact Or.inr ⟨h.1.symm, e, h.2.1.symm⟩
      · exact ih st2 si2 ret err st' si' h

theorem all_loop_ok (fuel : Nat) :
    ∀ (ps : List ConfigModuleParser) (st : ExpCtx) (si : Nat)
      (ret : Int) (err : Option String) (st' : ExpCtx) (si' : Nat),
      (∀ mp ∈ ps, mp.delayed_error = none) →
      config_export_all_loop fuel st ps si = some (ret, err, st', si') →
      ret = 0 ∧ err = none := by
  intro ps
  induction ps with
  | nil =>
    intro st si ret err st' si' _ h
    simp only [config_export_all_loop, Option.some.injEq, Prod.mk.injEq] at h
    exact ⟨h.1.symm, h.2.1.symm⟩
  | cons mp rest ih =>
    intro st si ret err st' si' hall h
    simp only [config_export_all_loop] at h
    rcases hone : config_export_one fuel st mp si with _ | r
    · rw [hone] at h; cases h
    · rw [hone] at h
      rcases r with e | ⟨st2, si2⟩
      · exfalso
        have hne := hall mp (List.mem_cons_self mp rest)
        simp only [config_export_one, hne] at hone
        rcases hx : settings_export fuel { st with section_idx := si } mp.root
            false mp.set mp.changes with _ | st3
        · rw [hx] at hone; cases hone
        · rw [hx] at hone; cases hone
      · exact ih st2 si2 ret err st' si'
          (fun q hq => hall q (List.mem_cons_of_mem mp hq)) h

theorem all_loop_halt (fuel : Nat) :
    ∀ (a : List ConfigModuleParser) (st : ExpCtx) (si : Nat)
      (b : ConfigModuleParser) (c : List ConfigModuleParser) (e : String)
      (stA : ExpCtx) (siA : Nat),
      b.delayed_error = some e →
      config_export_all_loop fuel st a si = some (0, none, stA, siA) →
      config_export_all_loop fuel st (a ++ b :: c) si =
        some (-1, some e, stA, siA) := by
  intro a
  induction a with
  | nil =>
    intro st si b c e stA siA hb h
    simp only [config_export_all_loop, Option.some.injEq, Prod.mk.injEq] at h
    obtain ⟨-, -, h3, h4⟩ := h
    subst h3; subst h4
    simp only [List.nil_append, config_export_all_loop, config_export_one, hb]
  | cons mp rest ih =>
    intro st si b c e stA siA hb h
    simp only [config_export_all_loop] at h ⊢
    rcases hone : config_export_one fuel st mp si with _ | r
    · rw [hone] at h; cases h
    · rw [hone] at h
      rcases r with e2 | ⟨st2, si2⟩
      · simp only [Option.some.injEq, Prod.mk.injEq] at h
        exact absurd h.1 (by norm_num)
      · exact ih st2 si2 b c e stA siA hb h

/-- Claim C6: a module parser carrying a deferred error makes export-one
fail immediately with the stored message verbatim, emitting nothing;
export-all runs export-one over the parsers in order, halts at the first
failure, returns a non-zero status exactly in that case (zero otherwise),
and performs the context free exactly once on the success path and the
failure path alike. -/
theorem deferred_error_handling :
    (∀ (fuel : Nat) (st : ExpCtx) (mp : ConfigModuleParser) (si : Nat) (e : String),
      mp.delayed_error = some e →
      config_export_one fuel st mp si = some (Except.error e)) ∧
    (∀ (fuel : Nat) (st : ExpCtx) (ps : List ConfigModuleParser) (si : Nat)
       (ret : Int) (err : Option String) (frees : Nat) (st' : ExpCtx) (si' : Nat),
      config_export_all_parsers fuel st ps si = some (ret, err, frees, st', si') →
      frees = 1 ∧ ((ret = 0 ∧ err = none) ∨ (ret = -1 ∧ ∃ e, err = some e))) ∧
    (∀ (fuel : Nat) (st : ExpCtx) (ps : List ConfigModuleParser) (si : Nat)
       (ret : Int) (err : Option String) (frees : Nat) (st' : ExpCtx) (si' : Nat),
      (∀ mp ∈ ps, mp.delayed_error = none) →
      config_export_all_parsers fuel st ps si = some (ret, err, frees, st', si') →
      ret = 0 ∧ err = none) ∧
    (∀ (fuel : Nat) (st : ExpCtx) (a : List ConfigModuleParser) (si : Nat)
       (b : ConfigModuleParser) (c : List ConfigModuleParser) (e : String)
       (stA : ExpCtx) (siA : Nat),
      b.delayed_error = some e →
      config_export_all_loop fuel st a si = some (0, none, stA, siA) →
      config_export_all_parsers fuel st (a ++ b :: c) si =
        some (-1, some e, 1, stA, siA)) := by
  refine ⟨?_, ?_, ?_, ?_⟩
  · intro fuel st mp si e h
    simp only [config_export_one, h]
  · intro fuel st ps si ret err frees st' si' h
    simp only [config_export_all_parsers] at h
    rcases hl : config_export_all_loop fuel st ps si with _ | ⟨r1, r2, r3, r4⟩
    · rw [hl] at h; cases h
    · rw [hl] at h
      simp only [config_export_free, Option.some.injEq, Prod.mk.injEq] at h
      obtain ⟨h1, h2, h3, -, -⟩ := h
      subst h1; subst h2; subst h3
      exact ⟨rfl, all_loop_status fuel ps st si r1 r2 r3 r4 hl⟩
  · intro fuel st ps si ret err frees st' si' hall h
    simp only [config_export_all_parsers] at h
    rcases hl : config_export_all_loop fuel st ps si with _ | ⟨r1, r2, r3, r4⟩
    · rw [hl] at h; cases h
    · rw [hl] at h
      simp only [config_export_free, Option.some.injEq, Prod.mk.injEq] at h
      obtain ⟨h1, h2, -, -, -⟩ := h
      subst h1; subst h2
      exact all_loop_ok fuel ps st si r1 r2 r3 r4 hall hl
  · intro fuel st a si b c e stA siA hb h
    have := all_loop_halt fuel a st si b c e stA siA hb h
    simp only [config_export_all_parsers, this, config_export_free]

/-- Witness for claim C6 at concrete inputs: a parser whose deferred error
is "boom" fails export-one with exactly that message, and export-all over a
healthy parser followed by the broken one stops there, returns -1, logs
"boom", frees once, and keeps only the healthy parser's (empty) output. -/
theorem deferred_error_handling_witness :
    config_export_one 5 (config_export_init DumpScope.CHANGED ⟨false, false⟩)
      ⟨.mk [] none 0, [], [], some "boom"⟩ 0 = some (Except.error "boom") ∧
    config_export_all_parsers 5 (config_export_init DumpScope.CHANGED ⟨false, false⟩)
      [⟨.mk [] none 0, [], [], none⟩, ⟨.mk [] none 0, [], [], some "boom"⟩] 0 =
      some (-1, some "boom", 1, config_export_init DumpScope.CHANGED ⟨false, false⟩, 0) :=
  ⟨deferred_error_handling.1 5 _ _ 0 "boom" rfl,
   deferred_error_handling.2.2.2 5 _ [⟨.mk [] none 0, [], [], none⟩] 0
     ⟨.mk [] none 0, [], [], some "boom"⟩ [] "boom" _ 0 rfl rfl⟩

theorem walkFrame_refl (st : ExpCtx) : WalkFrame st st :=
  ⟨rfl, rfl, rfl, le_refl _, ⟨[], by simp⟩, ⟨[], by simp⟩, fun _ => rfl⟩

theorem walkFrame_trans {a b c : ExpCtx} (h1 : WalkFrame a b) (h2 : WalkFrame b c) :
    WalkFrame a c := by
  obtain ⟨s1, f1, p1, i1, ⟨t1, o1⟩, ⟨k1, y1⟩, n1⟩ := h1
  obtain ⟨s2, f2, p2, i2, ⟨t2, o2⟩, ⟨k2, y2⟩, n2⟩ := h2
  refine ⟨s2.trans s1, f2.trans f1, p2.trans p1, i1.trans i2,
    ⟨t1 ++ t2, by rw [o2, o1, List.append_assoc]⟩,
    ⟨k2 ++ k1, by rw [y2, y1, List.append_assoc]⟩, ?_⟩
  intro hnd
  rw [n2 (by rw [f1]; exact hnd), n1 hnd]

theorem leafEmit_frame (st : ExpCtx) (d : SettingDefine) (toff : Nat) (pu : Bool)
    (text : String) (dump : Bool) :
    WalkFrame st (leafEmit st d toff pu text dump) ∧
    (leafEmit st d toff pu text dump).section_idx = st.section_idx := by
  unfold leafEmit
  split
  · split
    · exact ⟨walkFrame_refl st, rfl⟩
    · split
      · rename_i hdup
        exact ⟨⟨rfl, rfl, rfl, le_refl _, ⟨_, rfl⟩, ⟨[st.pfx ++ d.key], rfl⟩,
          fun hnd => by rw [hdup] at hnd; cases hnd⟩, rfl⟩
      · exact ⟨⟨rfl, rfl, rfl, le_refl _, ⟨_, rfl⟩, ⟨[], by simp⟩,
          fun _ => rfl⟩, rfl⟩
  · exact ⟨walkFrame_refl st, rfl⟩

theorem walkFrame_bump {a b : ExpCtx} (k : Nat) (h : WalkFrame a b) :
    WalkFrame a { b with section_idx := b.section_idx + k } := by
  obtain ⟨s1, f1, p1, i1, o1, y1, n1⟩ := h
  exact ⟨s1, f1, p1, i1.trans (Nat.le_add_right _ _), o1, y1, n1⟩

theorem walk_frame : ∀ fuel : Nat,
    (∀ st info pu set ch st',
      settings_export fuel st info pu set ch = some st' → WalkFrame st st') ∧
    (∀ st defs dfl toff pu set ch st',
      exportDefines fuel st defs dfl toff pu set ch = some st' → WalkFrame st st') ∧
    (∀ st d dfl toff pu set ch st',
      exportDef fuel st d dfl toff pu set ch = some st' → WalkFrame st st') ∧
    (∀ st key uniq li kids idx st',
      exportChildren fuel st key uniq li kids idx = some st' → WalkFrame st st') := by
  intro fuel
  induction fuel with
  | zero =>
    refine ⟨?_, ?_, ?_, ?_⟩
    · intro st info pu set ch st' h
      exact Option.noConfusion h
    · intro st defs dfl toff pu set ch st' h
      exact Option.noConfusion h
    · intro st d dfl toff pu set ch st' h
      exact Option.noConfusion h
    · intro st key uniq li kids idx st' h
      exact Option.noConfusion h
  | succ n ih =>
    obtain ⟨ihS, ihD, ihF, ihC⟩ := ih
    refine ⟨?_, ?_, ?_, ?_⟩
    · intro st info pu set ch st' h
      simp only [settings_export] at h
      exact ihD _ _ _ _ _ _ _ _ h
    · intro st defs dfl toff pu set ch st' h
      cases defs with
      | nil =>
        simp only [exportDefines] at h
        cases h
        exact walkFrame_refl st
      | cons d rest =>
        simp only [exportDefines] at h
        rcases hx : exportDef n st d dfl toff pu set ch with _ | st1 <;> rw [hx] at h
        · exact Option.noConfusion h
        · exact walkFrame_trans (ihF _ _ _ _ _ _ _ _ hx) (ihD _ _ _ _ _ _ _ _ h)
    · intro st d dfl toff pu set ch st' h
      simp only [exportDef] at h
      split at h
      · -- the (some value, some change_value) arm
        split at h
        · -- SET_DEFLIST
          split at h
          · cases h
            exact (leafEmit_frame st d toff pu "" false).1
          · split at h
            · split at h
              · split at h
                · exact Option.noConfusion h
                · exact walkFrame_trans
                    (walkFrame_bump _ (leafEmit_frame st d toff pu _ false).1)
                    (ihC _ _ _ _ _ _ _ h)
              · exact Option.noConfusion h
            · exact Option.noConfusion h
          · exact Option.noConfusion h
        · -- SET_DEFLIST_UNIQUE
          split at h
          · cases h
            exact (leafEmit_frame st d toff pu "" false).1
          · split at h
            · split at h
              · split at h
                · exact Option.noConfusion h
                · exact walkFrame_trans
                    (walkFrame_bump _ (leafEmit_frame st d toff pu _ false).1)
                    (ihC _ _ _ _ _ _ _ h)
              · exact Option.noConfusion h
            · exact Option.noConfusion h
          · exact Option.noConfusion h
        · -- SET_STRLIST
          split at h
          · cases h
            exact (leafEmit_frame st d toff pu "" false).1
          · split at h
            · cases h
              exact (leafEmit_frame st d toff pu "" false).1
            · cases h
              rw [leafEmit_empty]
              by_cases hdup : st.flags.deduplicate_keys = true
              · simp only [hdup, if_true]
                exact ⟨rfl, rfl, rfl, le_refl _, ⟨_, List.append_assoc _ _ _⟩,
                  ⟨[st.pfx ++ d.key], rfl⟩,
                  fun hnd => by rw [hdup] at hnd; cases hnd⟩
              · simp only [hdup, if_false]
                exact ⟨rfl, rfl, rfl, le_refl _, ⟨_, List.append_assoc _ _ _⟩,
                  ⟨[], by simp⟩, fun _ => rfl⟩
          · exact Option.noConfusion h
        · -- SET_ALIAS
          cases h
          exact (leafEmit_frame st d toff pu "" false).1
        · -- scalar types
          split at h
          · exact Option.noConfusion h
          · cases h
            exact (leafEmit_frame st d toff pu _ _).1
      · exact Option.noConfusion h
    · intro st key uniq li kids idx st' h
      cases kids with
      | nil =>
        simp only [exportChildren] at h
        cases h
        exact walkFrame_refl st
      | cons kid rest =>
        obtain ⟨cs, cc⟩ := kid
        simp only [exportChildren] at h
        split at h
        next => exact Option.noConfusion h
        next l hl =>
          split at h
          next => exact Option.noConfusion h
          next name hn =>
            split at h
            next => exact Option.noConfusion h
            next st2 hs =>
              have f1 := ihS _ _ _ _ _ _ hs
              obtain ⟨s1, f1f, p1, i1, ⟨t1, o1⟩, ⟨k1, y1⟩, n1⟩ := f1
              exact walkFrame_trans (b := { st2 with pfx := st.pfx })
                ⟨s1, f1f, rfl, i1, ⟨t1, o1⟩, ⟨k1, y1⟩, n1⟩ (ihC _ _ _ _ _ _ _ h)

set_option maxHeartbeats 2000000 in
/-- Claim C10: with DEDUPLICATE_KEYS clear the emitted-keys set is never
inserted into, so a pass that starts with the empty set keeps it empty
throughout, and the deduplication lookup never suppresses anything: a leaf
is emitted whenever it has content or emission was signalled, a
string-multimap occurrence is emitted (announcement plus pairs) whenever its
array is created, and the same fully-prefixed key is emitted again each time
it is produced, as the concrete run with a duplicated key shows. -/
theorem nodedup_no_suppression :
    (∀ (fuel : Nat) (st : ExpCtx) (info : SettingParserInfo) (pu : Bool)
       (set : List SettingValue) (ch : List ChangeValue) (st' : ExpCtx),
      st.flags.deduplicate_keys = false →
      settings_export fuel st info pu set ch = some st' →
      st'.keys = st.keys) ∧
    (∀ (st : ExpCtx) (d : SettingDefine) (toff : Nat) (pu : Bool)
       (text : String) (dump : Bool),
      st.keys = [] → st.flags.deduplicate_keys = false →
      leafEmit st d toff pu text dump =
        if text.length > 0 ∨ dump = true then
          { st with out := st.out ++ [⟨st.pfx ++ d.key, text, leafKtype d toff pu⟩] }
        else st) ∧
    (∀ (fuel : Nat) (st : ExpCtx) (d : SettingDefine)
       (dfl : Option (List SettingValue)) (toff : Nat) (pu : Bool)
       (set : List SettingValue) (ch : List ChangeValue)
       (ps : List (String × String)) (cv : ChangeValue),
      d.stype = SettingType.SET_STRLIST →
      set[d.offset]? = some (SettingValue.vStrList (some ps)) →
      ch[d.offset]? = some cv →
      st.keys = [] → st.flags.deduplicate_keys = false →
      exportDef (fuel + 1) st d dfl toff pu set ch =
        some { st with out := st.out ++
          (Entry.mk (st.pfx ++ d.key) "" ConfigKeyType.LIST ::
            ps.map (fun p =>
              Entry.mk ((st.pfx ++ d.key) ++ sepStr ++ p.1) p.2
                ConfigKeyType.NORMAL)) }) ∧
    ((((settings_export 20 (config_export_init DumpScope.ALL_WITH_HIDDEN ⟨false, false⟩)
        uniqRootInfo false uniqSet uniqChanges).map ExpCtx.out).getD []).filter
        (fun e => e.key = "list/n/f") =
      [Entry.mk "list/n/f" "d" ConfigKeyType.NORMAL,
       Entry.mk "list/n/f" "x" ConfigKeyType.NORMAL] ∧
     ((settings_export 20 (config_export_init DumpScope.ALL_WITH_HIDDEN ⟨false, false⟩)
        uniqRootInfo false uniqSet uniqChanges).map ExpCtx.keys).getD ["x"] = []) := by
  refine ⟨?_, ?_, ?_, ?_, ?_⟩
  · intro fuel st info pu set ch st' hnd h
    exact ((walk_frame fuel).1 _ _ _ _ _ _ h).2.2.2.2.2.2 hnd
  · intro st d toff pu text dump hkeys hnd
    unfold leafEmit
    split
    · rw [hkeys]
      simp [hnd]
    · rfl
  · intro fuel st d dfl toff pu set ch ps cv hd hv hc hkeys hnd
    have hmem : st.pfx ++ d.key ∉ st.keys := by
      rw [hkeys]; exact List.not_mem_nil _
    simp only [exportDef, hv, hc, hd, if_neg hmem, hnd, if_false, leafEmit_empty,
      List.append_assoc, List.singleton_append]
    simp
  · rfl
  · rfl

/-- Witness for claim C10's conditional parts at a concrete input. -/
theorem nodedup_no_suppression_witness :
    leafEmit ⟨DumpScope.CHANGED, ⟨false, false⟩, "p/", [], 0, []⟩
        (SettingDefine.mk "f" SettingType.SET_STR 0 false none) 0 false "v" true =
      ⟨DumpScope.CHANGED, ⟨false, false⟩, "p/", [], 0,
        [⟨"p/f", "v", ConfigKeyType.NORMAL⟩]⟩ ∧
    exportDef 1 ⟨DumpScope.CHANGED, ⟨false, false⟩, "p/", [], 0, []⟩
        (SettingDefine.mk "m" SettingType.SET_STRLIST 0 false none) none 0 false
        [SettingValue.vStrList (some [("a", "1")])] [ChangeValue.cByte false] =
      some ⟨DumpScope.CHANGED, ⟨false, false⟩, "p/", [], 0,
        [⟨"p/m", "", ConfigKeyType.LIST⟩, ⟨"p/m/a", "1", ConfigKeyType.NORMAL⟩]⟩ := by
  constructor
  · have h := nodedup_no_suppression.2.1
      ⟨DumpScope.CHANGED, ⟨false, false⟩, "p/", [], 0, []⟩
      (SettingDefine.mk "f" SettingType.SET_STR 0 false none) 0 false "v" true rfl rfl
    exact h
  · have h := nodedup_no_suppression.2.2.1 0
      ⟨DumpScope.CHANGED, ⟨false, false⟩, "p/", [], 0, []⟩
      (SettingDefine.mk "m" SettingType.SET_STRLIST 0 false none) none 0 false
      [SettingValue.vStrList (some [("a", "1")])] [ChangeValue.cByte false]
      [("a", "1")] (ChangeValue.cByte false) rfl rfl rfl rfl rfl
    exact h

theorem idx_uniq_child_run (f : Nat) (st : ExpCtx) (cs : List SettingValue)
    (cc : List ChangeValue) :
    settings_export (f + 2) st idxUniqChildInfo true cs cc = some st := rfl

theorem idx_uniq_children_loop : ∀ (j f : Nat) (st : ExpCtx) (idx : Nat),
    exportChildren (f + j + 3) st "u" true (some idxUniqChildInfo)
      (List.replicate j ([SettingValue.vStr (some "a")], [])) idx = some st := by
  intro j
  induction j with
  | zero => intro f st idx; rfl
  | succ j ih =>
    intro f st idx
    exact ih f st (idx + 1)

theorem idx_uniq_names_exist : ∀ (j idx : Nat) (first : Bool),
    ∃ s, buildSectionNames true (some idxUniqChildInfo)
      (List.replicate j [SettingValue.vStr (some "a")]) idx first = some s := by
  intro j
  induction j with
  | zero => intro idx first; exact ⟨"", rfl⟩
  | succ j ih =>
    intro idx first
    obtain ⟨s, hs⟩ := ih (idx + 1) false
    refine ⟨(if first then "" else " ") ++ "a" ++ s, ?_⟩
    simp only [List.replicate_succ, buildSectionNames]
    rw [show setting_export_section_name true (some idxUniqChildInfo)
        [SettingValue.vStr (some "a")] idx = some "a" from rfl, hs]

theorem expctx_build (st : ExpCtx) (sc : DumpScope) (fl : DumpFlags) (p : String)
    (ks : List String) (si : Nat) (o : List Entry)
    (h1 : st.scope = sc) (h2 : st.flags = fl) (h3 : st.pfx = p) (h4 : st.keys = ks)
    (h5 : st.section_idx = si) (h6 : st.out = o) : st = ⟨sc, fl, p, ks, si, o⟩ := by
  cases st
  simp only at h1 h2 h3 h4 h5 h6
  rw [h1, h2, h3, h4, h5, h6]

theorem deflist_unique_branch (fuel : Nat) (st : ExpCtx) (d : SettingDefine)
    (dfl : Option (List SettingValue)) (toff : Nat) (pu : Bool)
    (set : List SettingValue) (ch : List ChangeValue)
    (kids : List (List SettingValue)) (ckids : List (List ChangeValue))
    (names : String)
    (hd : d.stype = SettingType.SET_DEFLIST_UNIQUE)
    (hv : set[d.offset]? = some (SettingValue.vList (some kids)))
    (hc : ch[d.offset]? = some (ChangeValue.cList ckids))
    (hlen : kids.length = ckids.length)
    (hn : buildSectionNames true d.list_info kids st.section_idx true = some names) :
    exportDef (fuel + 1) st d dfl toff pu set ch =
      exportChildren fuel
        { leafEmit st d toff pu names false with
          section_idx := (leafEmit st d toff pu names false).section_idx + kids.length }
        d.key true d.list_info (kids.zip ckids)
        (leafEmit st d toff pu names false).section_idx := by
  simp only [exportDef, hv, hc, hd, if_pos hlen, decide_True, hn]

theorem deflist_plain_branch (fuel : Nat) (st : ExpCtx) (d : SettingDefine)
    (dfl : Option (List SettingValue)) (toff : Nat) (pu : Bool)
    (set : List SettingValue) (ch : List ChangeValue)
    (kids : List (List SettingValue)) (ckids : List (List ChangeValue))
    (names : String)
    (hd : d.stype = SettingType.SET_DEFLIST)
    (hv : set[d.offset]? = some (SettingValue.vList (some kids)))
    (hc : ch[d.offset]? = some (ChangeValue.cList ckids))
    (hlen : kids.length = ckids.length)
    (hn : buildSectionNames false d.list_info kids st.section_idx true = some names) :
    exportDef (fuel + 1) st d dfl toff pu set ch =
      exportChildren fuel
        { leafEmit st d toff pu names false with
          section_idx := (leafEmit st d toff pu names false).section_idx + kids.length }
        d.key false d.list_info (kids.zip ckids)
        (leafEmit st d toff pu names false).section_idx := by
  have hdec : decide (SettingType.SET_DEFLIST = SettingType.SET_DEFLIST_UNIQUE) = false := rfl
  simp only [exportDef, hv, hc, hd, if_pos hlen, hdec, hn]

theorem idx_d1_phase (k f : Nat) :
    ∃ pre, exportDef (f + k + 6) (config_export_init DumpScope.CHANGED ⟨false, false⟩)
      (SettingDefine.mk "u" SettingType.SET_DEFLIST_UNIQUE 0 false (some idxUniqChildInfo))
      none 0 false (idxSet k) (idxChanges k) =
      some ⟨DumpScope.CHANGED, ⟨false, false⟩, "", [], k, pre⟩ := by
  cases k with
  | zero => exact ⟨[], rfl⟩
  | succ j =>
    obtain ⟨names, hn⟩ := idx_uniq_names_exist (j + 1) 0 true
    have harith : f + (j + 1) + 6 = (f + j + 6) + 1 := by omega
    rw [harith]
    rw [deflist_unique_branch (f + j + 6)
      (config_export_init DumpScope.CHANGED ⟨false, false⟩)
      (SettingDefine.mk "u" SettingType.SET_DEFLIST_UNIQUE 0 false
        (some idxUniqChildInfo))
      none 0 false (idxSet (j + 1)) (idxChanges (j + 1))
      (List.replicate (j + 1) [SettingValue.vStr (some "a")])
      (List.replicate (j + 1) ([] : List ChangeValue))
      names rfl rfl rfl (by simp) hn]
    obtain ⟨⟨hsc, hflags, hpfx, -, ⟨t, hout⟩, -, hknd⟩, hsi⟩ :=
      leafEmit_frame (config_export_init DumpScope.CHANGED ⟨false, false⟩)
        (SettingDefine.mk "u" SettingType.SET_DEFLIST_UNIQUE 0 false
          (some idxUniqChildInfo)) 0 false names false
    have hst1 : leafEmit (config_export_init DumpScope.CHANGED ⟨false, false⟩)
        (SettingDefine.mk "u" SettingType.SET_DEFLIST_UNIQUE 0 false
          (some idxUniqChildInfo)) 0 false names false =
        ⟨DumpScope.CHANGED, ⟨false, false⟩, "", [], 0, t⟩ :=
      expctx_build _ _ _ _ _ _ _ hsc hflags hpfx (hknd rfl) hsi
        (hout.trans (List.nil_append t))
    rw [hst1]
    refine ⟨t, ?_⟩
    rw [List.zip_replicate']
    simp only [List.length_replicate]
    have harith2 : f + j + 6 = (f + 2) + (j + 1) + 3 := by omega
    rw [harith2]
    have := idx_uniq_children_loop (j + 1) (f + 2)
      ⟨DumpScope.CHANGED, ⟨false, false⟩, "", [], 0 + (j + 1), t⟩ 0
    simpa using this

theorem idx_ids_length (k : Nat) :
    0 < (("" ++ toString k) ++ ((" " ++ toString (k + 1)) ++
      ((" " ++ toString (k + 2)) ++ ""))).length := by
  have h1 : (" " : String).length = 1 := rfl
  simp [String.length_append, h1]

theorem idx_d2_phase (k g : Nat) (o : List Entry) :
    exportDef (g + 7) ⟨DumpScope.CHANGED, ⟨false, false⟩, "", [], k, o⟩
      (SettingDefine.mk "l" SettingType.SET_DEFLIST 1 false (some idxListChildInfo))
      none 0 false (idxSet k) (idxChanges k) =
      some ⟨DumpScope.CHANGED, ⟨false, false⟩, "", [], k + 3,
        (((o ++ [⟨"l", ("" ++ toString k) ++ ((" " ++ toString (k + 1)) ++
              ((" " ++ toString (k + 2)) ++ "")), ConfigKeyType.LIST⟩]) ++
          [⟨"l" ++ sepStr ++ toString k ++ sepStr ++ "f", "x", ConfigKeyType.NORMAL⟩]) ++
          [⟨"l" ++ sepStr ++ toString (k + 1) ++ sepStr ++ "f", "x", ConfigKeyType.NORMAL⟩]) ++
          [⟨"l" ++ sepStr ++ toString (k + 2) ++ sepStr ++ "f", "x", ConfigKeyType.NORMAL⟩]⟩ := by
  rw [show g + 7 = (g + 6) + 1 from rfl]
  rw [deflist_plain_branch (g + 6)
    ⟨DumpScope.CHANGED, ⟨false, false⟩, "", [], k, o⟩
    (SettingDefine.mk "l" SettingType.SET_DEFLIST 1 false (some idxListChildInfo))
    none 0 false (idxSet k) (idxChanges k)
    [[SettingValue.vStr (some "x")], [SettingValue.vStr (some "x")],
      [SettingValue.vStr (some "x")]]
    [[ChangeValue.cByte false], [ChangeValue.cByte false], [ChangeValue.cByte false]]
    (("" ++ toString k) ++ ((" " ++ toString (k + 1)) ++ ((" " ++ toString (k + 2)) ++ "")))
    rfl rfl rfl rfl rfl]
  have hleaf : leafEmit ⟨DumpScope.CHANGED, ⟨false, false⟩, "", [], k, o⟩
      (SettingDefine.mk "l" SettingType.SET_DEFLIST 1 false (some idxListChildInfo)) 0 false
      (("" ++ toString k) ++ ((" " ++ toString (k + 1)) ++ ((" " ++ toString (k + 2)) ++ "")))
      false =
      ⟨DumpScope.CHANGED, ⟨false, false⟩, "", [], k,
        o ++ [⟨"l", ("" ++ toString k) ++ ((" " ++ toString (k + 1)) ++
          ((" " ++ toString (k + 2)) ++ "")), ConfigKeyType.LIST⟩]⟩ := by
    unfold leafEmit
    rw [if_pos (Or.inl (idx_ids_length k))]
    rfl
  rw [hleaf]
  rfl

theorem exportDefines_cons (fuel : Nat) (st : ExpCtx) (d : SettingDefine)
    (rest : List SettingDefine) (dfl : Option (List SettingValue)) (toff : Nat)
    (pu : Bool) (set : List SettingValue) (ch : List ChangeValue) (st1 : ExpCtx)
    (h : exportDef fuel st d dfl toff pu set ch = some st1) :
    exportDefines (fuel + 1) st (d :: rest) dfl toff pu set ch =
      exportDefines fuel st1 rest dfl toff pu set ch := by
  simp only [exportDefines, h]

theorem idx_run (k f : Nat) :
    ∃ pre, settings_export (f + k + 12) (config_export_init DumpScope.CHANGED ⟨false, false⟩)
      idxRootInfo false (idxSet k) (idxChanges k) =
      some ⟨DumpScope.CHANGED, ⟨false, false⟩, "", [], k + 3,
        pre ++
          [⟨"l", ("" ++ toString k) ++ ((" " ++ toString (k + 1)) ++
              ((" " ++ toString (k + 2)) ++ "")), ConfigKeyType.LIST⟩,
           ⟨"l" ++ sepStr ++ toString k ++ sepStr ++ "f", "x", ConfigKeyType.NORMAL⟩,
           ⟨"l" ++ sepStr ++ toString (k + 1) ++ sepStr ++ "f", "x", ConfigKeyType.NORMAL⟩,
           ⟨"l" ++ sepStr ++ toString (k + 2) ++ sepStr ++ "f", "x", ConfigKeyType.NORMAL⟩]⟩ := by
  obtain ⟨pre, hd1⟩ := idx_d1_phase k (f + 4)
  rw [show f + 4 + k + 6 = f + k + 10 by omega] at hd1
  have hd2 := idx_d2_phase k (f + k + 2) pre
  rw [show f + k + 2 + 7 = f + k + 9 from rfl] at hd2
  refine ⟨pre, ?_⟩
  have step0 : settings_export (f + k + 12)
      (config_export_init DumpScope.CHANGED ⟨false, false⟩)
      idxRootInfo false (idxSet k) (idxChanges k) =
      exportDefines (f + k + 11) (config_export_init DumpScope.CHANGED ⟨false, false⟩)
        [SettingDefine.mk "u" SettingType.SET_DEFLIST_UNIQUE 0 false (some idxUniqChildInfo),
         SettingDefine.mk "l" SettingType.SET_DEFLIST 1 false (some idxListChildInfo)]
        none 0 false (idxSet k) (idxChanges k) := rfl
  rw [step0]
  rw [show f + k + 11 = (f + k + 10) + 1 from rfl]
  rw [exportDefines_cons (f + k + 10) _ _ _ _ _ _ _ _ _ hd1]
  rw [show f + k + 10 = (f + k + 9) + 1 from rfl]
  rw [exportDefines_cons (f + k + 9) _ _ _ _ _ _ _ _ _ hd2]
  rw [show f + k + 9 = (f + k + 8) + 1 from rfl]
  simp only [exportDefines, Option.some.injEq]
  simp [List.append_assoc]

/-- Claim C3: the global section-index counter is captured once before a
nested list's child loop, the children are assigned identifiers sequentially
from the captured value (the running index for non-unique lists), and the
counter is advanced by the element count, so it never decreases across a
pass — including across module parsers exported with the shared in/out
counter — and no index is reused; in particular a non-unique list of three
elements processed after a unique list of size k names its children
"k", "k+1", "k+2". -/
theorem section_index_rule :
    (∀ (fuel : Nat) (st : ExpCtx) (info : SettingParserInfo) (pu : Bool)
       (set : List SettingValue) (ch : List ChangeValue) (st' : ExpCtx),
      settings_export fuel st info pu set ch = some st' →
      st.section_idx ≤ st'.section_idx) ∧
    (∀ (fuel : Nat) (st : ExpCtx) (mp : ConfigModuleParser) (si : Nat)
       (st' : ExpCtx) (si' : Nat),
      config_export_one fuel st mp si = some (Except.ok (st', si')) →
      si ≤ si') ∧
    (∀ (li : Option SettingParserInfo) (cs : List SettingValue) (idx : Nat),
      setting_export_section_name false li cs idx = some (toString idx)) ∧
    (∀ k f : Nat, ∃ pre,
      settings_export (f + k + 12) (config_export_init DumpScope.CHANGED ⟨false, false⟩)
        idxRootInfo false (idxSet k) (idxChanges k) =
        some ⟨DumpScope.CHANGED, ⟨false, false⟩, "", [], k + 3,
          pre ++
            [⟨"l", toString k ++ " " ++ toString (k + 1) ++ " " ++ toString (k + 2),
                ConfigKeyType.LIST⟩,
             ⟨"l/" ++ toString k ++ "/f", "x", ConfigKeyType.NORMAL⟩,
             ⟨"l/" ++ toString (k + 1) ++ "/f", "x", ConfigKeyType.NORMAL⟩,
             ⟨"l/" ++ toString (k + 2) ++ "/f", "x", ConfigKeyType.NORMAL⟩]⟩) := by
  have hmono : ∀ (fuel : Nat) (st : ExpCtx) (info : SettingParserInfo) (pu : Bool)
      (set : List SettingValue) (ch : List ChangeValue) (st' : ExpCtx),
      settings_export fuel st info pu set ch = some st' →
      st.section_idx ≤ st'.section_idx := by
    intro fuel st info pu set ch st' h
    exact ((walk_frame fuel).1 _ _ _ _ _ _ h).2.2.2.1
  refine ⟨hmono, ?_, ?_, ?_⟩
  · intro fuel st mp si st' si' h
    unfold config_export_one at h
    rcases hde : mp.delayed_error with _ | e <;> rw [hde] at h
    · rcases hs : settings_export fuel { st with section_idx := si } mp.root false
          mp.set mp.changes with _ | st2 <;> rw [hs] at h
      · exact Option.noConfusion h
      · simp only [Option.some.injEq, Except.ok.injEq, Prod.mk.injEq] at h
        obtain ⟨⟨h1, h2⟩⟩ := h
        have := hmono _ _ _ _ _ _ _ hs
        simp only at this
        omega
    · simp only [Option.some.injEq] at h
      exact Except.noConfusion h
  · intro li cs idx
    rfl
  · intro k f
    obtain ⟨pre, hrun⟩ := idx_run k f
    refine ⟨pre, ?_⟩
    rw [hrun]
    have e1 : ("" ++ toString k) ++ ((" " ++ toString (k + 1)) ++
        ((" " ++ toString (k + 2)) ++ "")) =
        toString k ++ " " ++ toString (k + 1) ++ " " ++ toString (k + 2) := by
      apply String.ext
      simp [String.data_append]
    have e2 : ∀ m : Nat, "l" ++ sepStr ++ toString m ++ sepStr ++ "f" =
        "l/" ++ toString m ++ "/f" := by
      intro m
      apply String.ext
      simp [String.data_append, sepStr, String.data_singleton,
        show ("l" : String).data = ['l'] from rfl,
        show ("l/" : String).data = ['l', '/'] from rfl,
        show ("/f" : String).data = ['/', 'f'] from rfl,
        show ("f" : String).data = ['f'] from rfl, SETTINGS_SEPARATOR]
    rw [e1, e2, e2, e2]

/-- Witness for claim C3's conditional parts at concrete inputs: a trivial
successful run keeps the counter at its seed, and export of a parser with an
empty schema hands the shared counter 7 back unchanged. -/
theorem section_index_rule_witness :
    (config_export_init DumpScope.CHANGED ⟨false, false⟩).section_idx ≤
      (config_export_init DumpScope.CHANGED ⟨false, false⟩).section_idx ∧
    (7 : Nat) ≤ 7 :=
  ⟨section_index_rule.1 5 (config_export_init DumpScope.CHANGED ⟨false, false⟩)
      (.mk [] none 0) false [] [] (config_export_init DumpScope.CHANGED ⟨false, false⟩)
      rfl,
   section_index_rule.2.1 5 (config_export_init DumpScope.CHANGED ⟨false, false⟩)
      ⟨.mk [] none 0, [], [], none⟩ 7
      { config_export_init DumpScope.CHANGED ⟨false, false⟩ with section_idx := 7 } 7
      rfl⟩

theorem computeDumpDefault_mono (a b : DumpScope) (hid chg : Bool)
    (hab : scopeLE a b) (h : computeDumpDefault a hid chg = true) :
    computeDumpDefault b hid chg = true := by
  cases a <;> cases b <;> cases hid <;> cases chg <;>
    first
      | rfl
      | exact absurd hab (by decide)
      | exact absurd h (by decide)

theorem hideListDefaultsAdjust_mono (pu hl chg nf : Bool) (v : SettingValue)
    (dv : Option SettingValue) (dL dH : Bool) (himp : dL = true → dH = true) :
    (hideListDefaultsAdjust pu hl chg nf v dv dL).1 =
      (hideListDefaultsAdjust pu hl chg nf v dv dH).1 ∧
    ((hideListDefaultsAdjust pu hl chg nf v dv dL).2 = true →
      (hideListDefaultsAdjust pu hl chg nf v dv dH).2 = true) := by
  unfold hideListDefaultsAdjust
  split
  · exact ⟨rfl, himp⟩
  · split
    · exact ⟨rfl, himp⟩
    · exact ⟨rfl, fun _ => rfl⟩

theorem ite_mono_shape (dL dH c : Bool) (fmt : String) (tL : String) (bL : Bool)
    (himp : dL = true → dH = true)
    (h : (if (dL || c) = true then some (fmt, false) else some ("", false)) =
      some (tL, bL)) :
    ∃ tH bH, (if (dH || c) = true then some (fmt, false) else some ("", false)) =
      some (tH, bH) ∧ (tL.length > 0 ∨ bL = true → tH = tL ∧ bH = bL) := by
  by_cases hcl : (dL || c) = true
  · rw [if_pos hcl] at h
    cases h
    have hch : (dH || c) = true := by
      rcases Bool.or_eq_true_iff.mp hcl with hx | hx
      · rw [himp hx]; rfl
      · rw [hx]; simp
    rw [if_pos hch]
    exact ⟨fmt, false, rfl, fun _ => ⟨rfl, rfl⟩⟩
  · rw [if_neg hcl] at h
    cases h
    by_cases hch : (dH || c) = true
    · rw [if_pos hch]
      refine ⟨fmt, false, rfl, fun hpre => ?_⟩
      exfalso
      rcases hpre with hp | hp
      · exact absurd hp (by decide)
      · exact Bool.noConfusion hp
    · rw [if_neg hch]
      exact ⟨"", false, rfl, fun _ => ⟨rfl, rfl⟩⟩

theorem str_mono_shape (dL dH ne : Bool) (sv : Option String) (tL : String) (bL : Bool)
    (himp : dL = true → dH = true)
    (h : (if ((dL || ne) = true ∧ sv.isSome = true) then some (sv.getD "", true)
          else some ("", false)) = some (tL, bL)) :
    ∃ tH bH, (if ((dH || ne) = true ∧ sv.isSome = true) then some (sv.getD "", true)
          else some ("", false)) = some (tH, bH) ∧
      (tL.length > 0 ∨ bL = true → tH = tL ∧ bH = bL) := by
  by_cases hcl : ((dL || ne) = true ∧ sv.isSome = true)
  · rw [if_pos hcl] at h
    cases h
    have hch : ((dH || ne) = true ∧ sv.isSome = true) := by
      refine ⟨?_, hcl.2⟩
      rcases Bool.or_eq_true_iff.mp hcl.1 with hx | hx
      · rw [himp hx]; rfl
      · rw [hx]; simp
    rw [if_pos hch]
    exact ⟨_, _, rfl, fun _ => ⟨rfl, rfl⟩⟩
  · rw [if_neg hcl] at h
    cases h
    by_cases hch : ((dH || ne) = true ∧ sv.isSome = true)
    · rw [if_pos hch]
      refine ⟨_, _, rfl, fun hpre => ?_⟩
      exfalso
      rcases hpre with hp | hp
      · exact absurd hp (by decide)
      · exact Bool.noConfusion hp
    · rw [if_neg hch]
      exact ⟨_, _, rfl, fun _ => ⟨rfl, rfl⟩⟩

theorem config_export_type_mono (v : SettingValue) (dv : Option SettingValue)
    (ty : SettingType) (dL dH : Bool) (tL : String) (bL : Bool)
    (himp : dL = true → dH = true)
    (h : config_export_type v dv ty dL = some (tL, bL)) :
    ∃ tH bH, config_export_type v dv ty dH = some (tH, bH) ∧
      (tL.length > 0 ∨ bL = true → tH = tL ∧ bH = bL) := by
  cases ty <;> cases v <;>
    simp only [config_export_type] at h ⊢ <;>
    try exact Option.noConfusion h
  case SET_BOOL.vBool b =>
    rcases dv with _ | dval
    · exact ⟨tL, bL, h, fun _ => ⟨rfl, rfl⟩⟩
    · cases dval <;> try exact Option.noConfusion h
      exact ite_mono_shape dL dH _ _ tL bL himp h
  case SET_UINT.vUInt n =>
    rcases dv with _ | dval
    · exact ⟨tL, bL, h, fun _ => ⟨rfl, rfl⟩⟩
    · cases dval <;> try exact Option.noConfusion h
      exact ite_mono_shape dL dH _ _ tL bL himp h
  case SET_UINT_OCT.vUInt n =>
    rcases dv with _ | dval
    · exact ⟨tL, bL, h, fun _ => ⟨rfl, rfl⟩⟩
    · cases dval <;> try exact Option.noConfusion h
      exact ite_mono_shape dL dH _ _ tL bL himp h
  case SET_TIME.vUInt n =>
    rcases dv with _ | dval
    · exact ⟨tL, bL, h, fun _ => ⟨rfl, rfl⟩⟩
    · cases dval <;> try exact Option.noConfusion h
      exact ite_mono_shape dL dH _ _ tL bL himp h
  case SET_TIME_MSECS.vUInt n =>
    rcases dv with _ | dval
    · exact ⟨tL, bL, h, fun _ => ⟨rfl, rfl⟩⟩
    · cases dval <;> try exact Option.noConfusion h
      exact ite_mono_shape dL dH _ _ tL bL himp h
  case SET_SIZE.vSize n =>
    rcases dv with _ | dval
    · exact ⟨tL, bL, h, fun _ => ⟨rfl, rfl⟩⟩
    · cases dval <;> try exact Option.noConfusion h
      exact ite_mono_shape dL dH _ _ tL bL himp h
  case SET_IN_PORT.vPort n =>
    rcases dv with _ | dval
    · exact ⟨tL, bL, h, fun _ => ⟨rfl, rfl⟩⟩
    · cases dval <;> try exact Option.noConfusion h
      exact ite_mono_shape dL dH _ _ tL bL himp h
  case SET_STR.vStr sv =>
    rcases dv with _ | dval
    · exact str_mono_shape dL dH _ _ tL bL himp h
    · cases dval <;> try exact Option.noConfusion h
      exact str_mono_shape dL dH _ _ tL bL himp h
  case SET_STR_VARS.vStrVars raw =>
    split at h
    next hguard => exact Option.noConfusion h
    next hguard =>
      rw [if_neg hguard]
      rcases dv with _ | dval
      · exact str_mono_shape dL dH _ _ tL bL himp h
      · cases dval <;> try exact Option.noConfusion h
        exact str_mono_shape dL dH _ _ tL bL himp h
  case SET_ENUM.vEnum =>
    rename_i sv
    by_cases hdl : dL = true
    · rw [if_pos hdl] at h
      cases h
      rw [if_pos (himp hdl)]
      exact ⟨_, _, rfl, fun _ => ⟨rfl, rfl⟩⟩
    · rw [if_neg hdl] at h
      by_cases hdh : dH = true
      · rw [if_pos hdh]
        refine ⟨sv, false, rfl, fun hpre => ?_⟩
        split at h
        · exact Option.noConfusion h
        · split at h
          · cases h
            exact ⟨rfl, rfl⟩
          · cases h
            exfalso
            rcases hpre with hp | hp
            · exact absurd hp (by decide)
            · exact Bool.noConfusion hp
        · exact Option.noConfusion h
      · rw [if_neg hdh]
        exact ⟨tL, bL, h, fun _ => ⟨rfl, rfl⟩⟩

theorem leafEmit_sim (scL scH : DumpScope) (stL stH : ExpCtx) (d : SettingDefine)
    (toff : Nat) (pu : Bool) (tL tH : String) (bL bH : Bool)
    (hsim : SimRel scL scH stL stH)
    (hmono : tL.length > 0 ∨ bL = true → tH = tL ∧ bH = bL) :
    SimRel scL scH (leafEmit stL d toff pu tL bL) (leafEmit stH d toff pu tH bH) := by
  obtain ⟨h1, h2, h3, h4, h5, h6, h7, h8⟩ := hsim
  have h4' : stH.flags.deduplicate_keys = false := by rw [← h3]; exact h4
  unfold leafEmit
  by_cases hL : tL.length > 0 ∨ bL = true
  · obtain ⟨htt, hbb⟩ := hmono hL
    subst htt; subst hbb
    rw [if_pos hL, if_pos hL]
    by_cases hmem : stL.pfx ++ d.key ∈ stL.keys
    · have hmemH : stH.pfx ++ d.key ∈ stH.keys := by rw [← h5, ← h6]; exact hmem
      rw [if_pos hmem, if_pos hmemH]
      exact ⟨h1, h2, h3, h4, h5, h6, h7, h8⟩
    · have hmemH : stH.pfx ++ d.key ∉ stH.keys := by rw [← h5, ← h6]; exact hmem
      have hd4 : ¬ stL.flags.deduplicate_keys = true := by
        rw [h4]; exact Bool.false_ne_true
      have hd4' : ¬ stH.flags.deduplicate_keys = true := by
        rw [h4']; exact Bool.false_ne_true
      rw [if_neg hmem, if_neg hmemH, if_neg hd4, if_neg hd4']
      refine ⟨h1, h2, h3, h4, h5, h6, h7, ?_⟩
      rw [h5]
      exact h8.append (List.Sublist.refl _)
  · rw [if_neg hL]
    by_cases hH : tH.length > 0 ∨ bH = true
    · rw [if_pos hH]
      by_cases hmem : stH.pfx ++ d.key ∈ stH.keys
      · rw [if_pos hmem]
        exact ⟨h1, h2, h3, h4, h5, h6, h7, h8⟩
      · have hd4' : ¬ stH.flags.deduplicate_keys = true := by
          rw [h4']; exact Bool.false_ne_true
        rw [if_neg hmem, if_neg hd4']
        exact ⟨h1, h2, h3, h4, h5, h6, h7,
          h8.trans (List.sublist_append_left _ _)⟩
    · rw [if_neg hH]
      exact ⟨h1, h2, h3, h4, h5, h6, h7, h8⟩

theorem walk_sim (scL scH : DumpScope) (hsc : scopeLE scL scH) : ∀ fuel : Nat,
    (∀ stL stH info pu set ch stL', SimRel scL scH stL stH →
      settings_export fuel stL info pu set ch = some stL' →
      ∃ stH', settings_export fuel stH info pu set ch = some stH' ∧
        SimRel scL scH stL' stH') ∧
    (∀ stL stH defs dfl toff pu set ch stL', SimRel scL scH stL stH →
      exportDefines fuel stL defs dfl toff pu set ch = some stL' →
      ∃ stH', exportDefines fuel stH defs dfl toff pu set ch = some stH' ∧
        SimRel scL scH stL' stH') ∧
    (∀ stL stH d dfl toff pu set ch stL', SimRel scL scH stL stH →
      exportDef fuel stL d dfl toff pu set ch = some stL' →
      ∃ stH', exportDef fuel stH d dfl toff pu set ch = some stH' ∧
        SimRel scL scH stL' stH') ∧
    (∀ stL stH key uniq li kids idx stL', SimRel scL scH stL stH →
      exportChildren fuel stL key uniq li kids idx = some stL' →
      ∃ stH', exportChildren fuel stH key uniq li kids idx = some stH' ∧
        SimRel scL scH stL' stH') := by
  intro fuel
  induction fuel with
  | zero =>
    refine ⟨?_, ?_, ?_, ?_⟩
    · intro stL stH info pu set ch stL' hsim h
      exact Option.noConfusion h
    · intro stL stH defs dfl toff pu set ch stL' hsim h
      exact Option.noConfusion h
    · intro stL stH d dfl toff pu set ch stL' hsim h
      exact Option.noConfusion h
    · intro stL stH key uniq li kids idx stL' hsim h
      exact Option.noConfusion h
  | succ n ih =>
    obtain ⟨ihS, ihD, ihF, ihC⟩ := ih
    refine ⟨?_, ?_, ?_, ?_⟩
    · intro stL stH info pu set ch stL' hsim h
      simp only [settings_export] at h ⊢
      exact ihD _ _ _ _ _ _ _ _ _ hsim h
    · intro stL stH defs dfl toff pu set ch stL' hsim h
      cases defs with
      | nil =>
        simp only [exportDefines] at h ⊢
        cases h
        exact ⟨stH, rfl, hsim⟩
      | cons d rest =>
        simp only [exportDefines] at h ⊢
        rcases hx : exportDef n stL d dfl toff pu set ch with _ | st1
        · rw [hx] at h
          exact Option.noConfusion h
        · rw [hx] at h
          obtain ⟨stH1, hxH, hsim1⟩ := ihF _ _ _ _ _ _ _ _ _ hsim hx
          obtain ⟨stH', hdH, hsim'⟩ := ihD _ _ _ _ _ _ _ _ _ hsim1 h
          rw [hxH]
          exact ⟨stH', hdH, hsim'⟩
    · intro stL stH d dfl toff pu set ch stL' hsim h
      simp only [exportDef] at h ⊢
      rcases hv : set[d.offset]? with _ | value
      · rw [hv] at h
        exact Option.noConfusion h
      rcases hc : ch[d.offset]? with _ | cv
      · rw [hv, hc] at h
        exact Option.noConfusion h
      rw [hv, hc] at h
      rcases hty : d.stype <;> rw [hty] at h <;> rcases dfl with _ | ds <;>
        simp only [] at h ⊢ <;>
      first
      | -- SET_ALIAS: a bare no-op leaf step
        (obtain ⟨g1, g2, g3, g4, g5, g6, g7, g8⟩ := hsim
         cases h
         exact ⟨leafEmit stH d toff pu "" false, rfl,
           leafEmit_sim scL scH stL stH d toff pu "" "" false false
             ⟨g1, g2, g3, g4, g5, g6, g7, g8⟩ (fun _ => ⟨rfl, rfl⟩)⟩)
      | -- SET_STRLIST
        (obtain ⟨g1, g2, g3, g4, g5, g6, g7, g8⟩ := hsim
         split at h
         · cases h
           exact ⟨leafEmit stH d toff pu "" false, rfl,
             leafEmit_sim scL scH stL stH d toff pu "" "" false false
               ⟨g1, g2, g3, g4, g5, g6, g7, g8⟩ (fun _ => ⟨rfl, rfl⟩)⟩
         · try simp only []
           rw [← g3, ← g5, ← g6]
           split at h
           next hmem =>
             rw [if_pos hmem]
             cases h
             exact ⟨leafEmit stH d toff pu "" false, rfl,
               leafEmit_sim scL scH stL stH d toff pu "" "" false false
                 ⟨g1, g2, g3, g4, g5, g6, g7, g8⟩ (fun _ => ⟨rfl, rfl⟩)⟩
           next hmem =>
             rw [if_neg hmem]
             cases h
             simp only [g4, reduceIte]
             rw [leafEmit_empty, leafEmit_empty]
             refine ⟨_, rfl, g1, g2, g3, g4, g5, g6, g7, ?_⟩
             exact (g8.append (List.Sublist.refl _)).append (List.Sublist.refl _)
         · exact Option.noConfusion h)
      | -- SET_DEFLIST / SET_DEFLIST_UNIQUE
        (obtain ⟨g1, g2, g3, g4, g5, g6, g7, g8⟩ := hsim
         split at h
         · cases h
           exact ⟨leafEmit stH d toff pu "" false, rfl,
             leafEmit_sim scL scH stL stH d toff pu "" "" false false
               ⟨g1, g2, g3, g4, g5, g6, g7, g8⟩ (fun _ => ⟨rfl, rfl⟩)⟩
         · next kids =>
           try simp only []
           split at h
           next ckids =>
             try simp only []
             split at h
             next hlen =>
               rw [if_pos hlen, ← g7]
               split at h
               next => exact Option.noConfusion h
               next names hbn =>
                 rw [(leafEmit_frame stH d toff pu names false).2]
                 rw [(leafEmit_frame stL d toff pu names false).2, g7] at h
                 have hsimle : SimRel scL scH (leafEmit stL d toff pu names false)
                     (leafEmit stH d toff pu names false) :=
                   leafEmit_sim scL scH stL stH d toff pu names names false false
                     ⟨g1, g2, g3, g4, g5, g6, g7, g8⟩ (fun _ => ⟨rfl, rfl⟩)
                 obtain ⟨e1, e2, e3, e4, e5, e6, e7, e8⟩ := hsimle
                 have hsim2 : SimRel scL scH
                     { leafEmit stL d toff pu names false with
                         section_idx := stH.section_idx + kids.length }
                     { leafEmit stH d toff pu names false with
                         section_idx := stH.section_idx + kids.length } :=
                   ⟨e1, e2, e3, e4, e5, e6, rfl, e8⟩
                 obtain ⟨stH', hch, hsim'⟩ := ihC _ _ _ _ _ _ _ _ hsim2 h
                 exact ⟨stH', hch, hsim'⟩
             next hlen => exact Option.noConfusion h
           next => exact Option.noConfusion h
         · exact Option.noConfusion h)
      | -- scalar types
        (obtain ⟨g1, g2, g3, g4, g5, g6, g7, g8⟩ := hsim
         rw [← g3]
         have himp : computeDumpDefault stL.scope d.hidden (changeByte cv) = true →
             computeDumpDefault stH.scope d.hidden (changeByte cv) = true := by
           intro hx
           rw [g2]
           exact computeDumpDefault_mono scL scH d.hidden (changeByte cv) hsc (g1 ▸ hx)
         split at h
         next => exact Option.noConfusion h
         next text dump heq =>
           cases h
           obtain ⟨hadj1, hadj2⟩ := hideListDefaultsAdjust_mono pu
             stL.flags.hide_list_defaults (changeByte cv)
             (decide (d.offset + 1 = toff)) value _
             (computeDumpDefault stL.scope d.hidden (changeByte cv))
             (computeDumpDefault stH.scope d.hidden (changeByte cv)) himp
           obtain ⟨tH, bH, hctH, hmono⟩ :=
             config_export_type_mono value _ _ _ _ text dump hadj2 heq
           rw [← hadj1, hctH]
           exact ⟨leafEmit stH d toff pu tH bH, rfl,
             leafEmit_sim scL scH stL stH d toff pu text tH dump bH
               ⟨g1, g2, g3, g4, g5, g6, g7, g8⟩ hmono⟩)
    · intro stL stH key uniq li kids idx stL' hsim h
      cases kids with
      | nil =>
        simp only [exportChildren] at h ⊢
        cases h
        exact ⟨stH, rfl, hsim⟩
      | cons kid rest =>
        obtain ⟨cs, cc⟩ := kid
        simp only [exportChildren] at h ⊢
        rcases li with _ | l
        · exact Option.noConfusion h
        rcases hn : setting_export_section_name uniq (some l) cs idx with _ | name
        · rw [hn] at h
          exact Option.noConfusion h
        rw [hn] at h
        obtain ⟨g1, g2, g3, g4, g5, g6, g7, g8⟩ := hsim
        simp only [] at h ⊢
        have hsim1 : SimRel scL scH
            ⟨stL.scope, stL.flags, stL.pfx ++ key ++ sepStr ++ name ++ sepStr,
              stL.keys, stL.section_idx, stL.out⟩
            ⟨stH.scope, stH.flags, stH.pfx ++ key ++ sepStr ++ name ++ sepStr,
              stH.keys, stH.section_idx, stH.out⟩ :=
          ⟨g1, g2, g3, g4, by rw [g5], g6, g7, g8⟩
        split at h
        next => exact Option.noConfusion h
        next st2 hse =>
          obtain ⟨stH2, hseH, hsim2⟩ := ihS _ _ _ _ _ _ _ hsim1 hse
          rw [hseH]
          simp only []
          obtain ⟨k1, k2, k3, k4, k5, k6, k7, k8⟩ := hsim2
          have hsim3 : SimRel scL scH { st2 with pfx := stL.pfx }
              { stH2 with pfx := stH.pfx } :=
            ⟨k1, k2, k3, k4, g5, k6, k7, k8⟩
          obtain ⟨stH', hchH, hsim'⟩ := ihC _ _ _ _ _ _ _ _ hsim3 h
          exact ⟨stH', hchH, hsim'⟩

/-- Claim C9 (amended): for a fixed schema, value instance, change mask and
flag set WITH DEDUPLICATE_KEYS CLEAR, the entries emitted by an export pass
are monotone in the dump scope: whenever the lower scope's pass succeeds,
the higher scope's pass succeeds and emits every entry the lower one emits
(the lower output is an order-preserving sublist, hence a subset, of the
higher output); the four scopes are ordered CHANGED ≤ SET ≤
ALL_WITHOUT_HIDDEN ≤ ALL_WITH_HIDDEN.  The claim as stated — monotonicity
for every flag set — fails when DEDUPLICATE_KEYS is set (see the separate
counterexample theorem). -/
theorem scope_monotonicity_nodedup :
    (∀ (fuel : Nat) (scL scH : DumpScope) (flags : DumpFlags)
      (info : SettingParserInfo) (set : List SettingValue)
      (ch : List ChangeValue) (stL' : ExpCtx),
      flags.deduplicate_keys = false → scopeLE scL scH →
      settings_export fuel (config_export_init scL flags) info false set ch
        = some stL' →
      ∃ stH', settings_export fuel (config_export_init scH flags) info false set ch
          = some stH' ∧ stL'.out.Sublist stH'.out ∧
          ∀ e ∈ stL'.out, e ∈ stH'.out) ∧
    scopeLE DumpScope.CHANGED DumpScope.SET ∧
    scopeLE DumpScope.SET DumpScope.ALL_WITHOUT_HIDDEN ∧
    scopeLE DumpScope.ALL_WITHOUT_HIDDEN DumpScope.ALL_WITH_HIDDEN := by
  refine ⟨?_, by decide, by decide, by decide⟩
  intro fuel scL scH flags info set ch stL' hnd hle h
  have hsim0 : SimRel scL scH (config_export_init scL flags)
      (config_export_init scH flags) :=
    ⟨rfl, rfl, rfl, hnd, rfl, rfl, rfl, List.Sublist.refl _⟩
  obtain ⟨stH', hH, hsim⟩ :=
    (walk_sim scL scH hle fuel).1 _ _ info false set ch stL' hsim0 h
  exact ⟨stH', hH, hsim.2.2.2.2.2.2.2,
    fun e he => hsim.2.2.2.2.2.2.2.subset he⟩

set_option maxHeartbeats 4000000 in
/-- Counterexample to claim C9 as stated (monotonicity for every flag set):
with DEDUPLICATE_KEYS set, a schema with no hidden fields, and two unique
sections sharing the name "n", the pass under SET emits the changed entry
list/n/f = "x", but the pass under the more permissive ALL_WITHOUT_HIDDEN
does not emit it at all: there the first sibling emits list/n/f = "d" and
records the key, so the second sibling's changed value is suppressed by the
deduplication check. -/
theorem scope_monotonicity_dedup_cex :
    scopeLE DumpScope.SET DumpScope.ALL_WITHOUT_HIDDEN ∧
    (∀ dd ∈ uniqRootInfo.defines, dd.hidden = false) ∧
    (∀ dd ∈ uniqChildInfo.defines, dd.hidden = false) ∧
    ∃ stS stA,
      settings_export 20 (config_export_init DumpScope.SET ⟨false, true⟩)
        uniqRootInfo false uniqSet uniqChanges = some stS ∧
      settings_export 20
        (config_export_init DumpScope.ALL_WITHOUT_HIDDEN ⟨false, true⟩)
        uniqRootInfo false uniqSet uniqChanges = some stA ∧
      Entry.mk "list/n/f" "x" ConfigKeyType.NORMAL ∈ stS.out ∧
      Entry.mk "list/n/f" "x" ConfigKeyType.NORMAL ∉ stA.out := by
  refine ⟨by decide, by decide, by decide, _, _, rfl, rfl, by decide, by decide⟩

set_option maxHeartbeats 4000000 in
/-- Witness for the amended monotonicity: on the two-sibling unique-list
fixture with DEDUPLICATE_KEYS clear, the CHANGED pass and the
ALL_WITH_HIDDEN pass both succeed and the former's output is a sublist of
the latter's. -/
theorem scope_monotonicity_nodedup_witness :
    ∃ stL' stH',
      settings_export 20 (config_export_init DumpScope.CHANGED ⟨false, false⟩)
        uniqRootInfo false uniqSet uniqChanges = some stL' ∧
      settings_export 20
        (config_export_init DumpScope.ALL_WITH_HIDDEN ⟨false, false⟩)
        uniqRootInfo false uniqSet uniqChanges = some stH' ∧
      stL'.out.Sublist stH'.out := by
  obtain ⟨stH', h1, h2, h3⟩ := scope_monotonicity_nodedup.1 20 DumpScope.CHANGED
    DumpScope.ALL_WITH_HIDDEN ⟨false, false⟩ uniqRootInfo uniqSet uniqChanges _
    rfl (by decide) rfl
  exact ⟨_, stH', rfl, h1, h2⟩
